import Mathlib

/-!
Verification development for the MAVLink Mission Transfer Engine
(`src/mavsdk/core/mavlink_mission_transfer.h`).

The repository provides the class header (data model, member declarations and
member initializers); the behaviour of the five WorkItem state machines is
modelled from the specification (`spec.md`, sections 4 and 5), as marked on
each definition.  Machine integers (`uint8_t`, `uint16_t`, `int32_t`) are
modelled as `Nat`/`Int`: the code never performs arithmetic on them that could
overflow (they are only stored and compared), so no modular reduction is
needed.  C++ `float` fields are only ever compared with IEEE `==`, so a float
is modelled as either NaN or a numeric value; IEEE `==` is false whenever
either side is NaN and is numeric equality otherwise (`+0 == -0` holds in
IEEE, matching a single numeric zero here).  Progress values are modelled as
rationals; the code computes them as exact quotients `k / n` rounded to
`float`, and rounding-to-nearest is monotone and fixes 0 and 1, so
monotonicity and the [0, 1] bounds transfer.
-/

namespace Mavsdk

/-- Model of a C++ `float` for the purposes of this header: the code only
stores floats and compares them with IEEE `==` (`ItemInt::operator==`,
header lines 69-77), so a float is either NaN or a numeric value. -/
inductive F32 where
  | nan : F32
  | val : ℚ → F32
deriving DecidableEq

/-- IEEE `==` on floats: false whenever either operand is NaN, numeric
equality otherwise. -/
def F32.ieeeEq : F32 → F32 → Bool
  | F32.val a, F32.val b => decide (a = b)
  | _, _ => false

/-- Whether the modelled float is NaN. -/
def F32.isNaN : F32 → Bool
  | F32.nan => true
  | F32.val _ => false

/-- `MAVLinkMissionTransfer::ItemInt` (header lines 54-78): the thirteen
fields of one mission item.  `seq`, `command` are `uint16_t`; `frame`,
`current`, `autocontinue`, `mission_type` are `uint8_t`; `x`, `y` are
`int32_t`; `param1..param4`, `z` are `float`. -/
structure ItemInt where
  seq : ℕ
  frame : ℕ
  command : ℕ
  current : ℕ
  autocontinue : ℕ
  param1 : F32
  param2 : F32
  param3 : F32
  param4 : F32
  x : ℤ
  y : ℤ
  z : F32
  mission_type : ℕ
deriving DecidableEq

/-- `ItemInt::operator==` (header lines 69-77): the conjunction, in source
order, of `==` on every field; the five float fields use IEEE `==`. -/
def ItemInt.eqOp (a other : ItemInt) : Bool :=
  decide (a.seq = other.seq) && decide (a.frame = other.frame) &&
  decide (a.command = other.command) && decide (a.current = other.current) &&
  decide (a.autocontinue = other.autocontinue) &&
  F32.ieeeEq a.param1 other.param1 && F32.ieeeEq a.param2 other.param2 &&
  F32.ieeeEq a.param3 other.param3 && F32.ieeeEq a.param4 other.param4 &&
  decide (a.x = other.x) && decide (a.y = other.y) && F32.ieeeEq a.z other.z &&
  decide (a.mission_type = other.mission_type)

/-- Structural (mathematical) equality of the thirteen fields, the reading of
"all thirteen fields are pairwise equal" in the specification. -/
def ItemInt.fieldsEq (a b : ItemInt) : Prop :=
  a.seq = b.seq ∧ a.frame = b.frame ∧ a.command = b.command ∧
  a.current = b.current ∧ a.autocontinue = b.autocontinue ∧
  a.param1 = b.param1 ∧ a.param2 = b.param2 ∧ a.param3 = b.param3 ∧
  a.param4 = b.param4 ∧ a.x = b.x ∧ a.y = b.y ∧ a.z = b.z ∧
  a.mission_type = b.mission_type

instance (a b : ItemInt) : Decidable (ItemInt.fieldsEq a b) := by
  unfold ItemInt.fieldsEq; infer_instance

/-- Whether any of the five float fields of an item is NaN. -/
def ItemInt.hasNaN (a : ItemInt) : Bool :=
  a.param1.isNaN || a.param2.isNaN || a.param3.isNaN || a.param4.isNaN ||
  a.z.isNaN

/-- A concrete all-zero mission item. -/
def item0 : ItemInt :=
  ⟨0, 0, 0, 0, 0, F32.val 0, F32.val 0, F32.val 0, F32.val 0, 0, 0, F32.val 0, 0⟩

/-- A concrete mission item whose `param1` is NaN. -/
def nanItem : ItemInt :=
  ⟨0, 0, 0, 0, 0, F32.nan, F32.val 0, F32.val 0, F32.val 0, 0, 0, F32.val 0, 0⟩

/-- `MAVLinkMissionTransfer::Result` (header lines 36-52). -/
inductive Result where
  | Success | ConnectionError | Denied | TooManyMissionItems | Timeout
  | Unsupported | UnsupportedFrame | NoMissionAvailable | Cancelled
  | MissionTypeNotConsistent | InvalidSequence | CurrentInvalid
  | ProtocolError | InvalidParam | IntMessagesNotSupported
deriving DecidableEq

/-- MAVLink `MISSION_ACK` status codes the spec's ACK mapping mentions
(spec section 4.1). -/
inductive AckCode where
  | accepted | ackError | unsupportedFrame | unsupported | noSpace
  | invalid | invalidSequence | denied | operationCancelled
  | missionTypeMismatch
deriving DecidableEq

/-- Modelled from the spec: ACK code to Result mapping of section 4.1
(the implementation's mapping function is not part of the header). -/
def ackToResult : AckCode → Result
  | AckCode.accepted => Result.Success
  | AckCode.ackError => Result.ProtocolError
  | AckCode.unsupportedFrame => Result.UnsupportedFrame
  | AckCode.unsupported => Result.Unsupported
  | AckCode.noSpace => Result.TooManyMissionItems
  | AckCode.invalid => Result.ProtocolError
  | AckCode.invalidSequence => Result.InvalidSequence
  | AckCode.denied => Result.Denied
  | AckCode.operationCancelled => Result.Cancelled
  | AckCode.missionTypeMismatch => Result.MissionTypeNotConsistent

/-- Outbound MAVLink messages the engine emits (spec section 6). -/
inductive OutMsg where
  | missionCount (count : ℕ) (type : ℕ)
  | missionItemInt (item : ItemInt)
  | missionAck (type : ℕ) (ack : AckCode)
  | missionRequestList (type : ℕ)
  | missionRequestInt (seq : ℕ) (type : ℕ) (targetComponent : ℕ)
  | missionClearAll (type : ℕ)
  | missionSetCurrent (current : ℤ)
deriving DecidableEq

/-- Events that drive a WorkItem: the caller starting or cancelling it, a
timer expiry, or an inbound MAVLink message (spec sections 5 and 6). -/
inductive Event where
  | start
  | cancel
  | timeout
  | missionRequestInt (seq : ℕ) (type : ℕ)
  | missionRequest (seq : ℕ) (type : ℕ)
  | missionAck (type : ℕ) (ack : AckCode)
  | missionCount (count : ℕ) (type : ℕ)
  | missionItemInt (item : ItemInt)
  | missionCurrent (seq : ℕ)
deriving DecidableEq

/-- A terminal callback invocation: plain result (`ResultCallback`) or
result with items (`ResultAndItemsCallback`), header lines 80-81. -/
inductive Term where
  | res (r : Result)
  | resItems (r : Result) (items : List ItemInt)
deriving DecidableEq

/-- The Result a terminal callback carries. -/
def Term.result : Term → Result
  | Term.res r => r
  | Term.resItems r _ => r

/-- One observable action of a WorkItem: an outbound message, a progress
callback invocation, or a terminal callback invocation. -/
inductive Output where
  | send (m : OutMsg)
  | progress (p : ℚ)
  | result (r : Result)
  | resultItems (r : Result) (items : List ItemInt)
deriving DecidableEq

/-- Whether an output is a terminal (result) callback invocation. -/
def Output.isTerminal : Output → Bool
  | Output.result _ => true
  | Output.resultItems _ _ => true
  | _ => false

/-- Render a terminal callback as an output. -/
def Term.toOutput : Term → Output
  | Term.res r => Output.result r
  | Term.resItems r items => Output.resultItems r items

/-- Result of one event-handler invocation on a WorkItem: the new state, the
messages sent, at most one progress invocation, and at most one terminal
callback invocation. -/
structure StepRes (σ : Type) where
  st : σ
  sends : List OutMsg
  prog : Option ℚ
  term : Option Term

/-- A handler invocation that does nothing (e.g. any event on a `done`
item). -/
def StepRes.noop {σ : Type} (s : σ) : StepRes σ := ⟨s, [], none, none⟩

/-- The non-terminal observable actions of one handler invocation: the
progress invocation (if any) followed by the messages sent. -/
def renderCore {σ : Type} (r : StepRes σ) : List Output :=
  (match r.prog with | none => [] | some p => [Output.progress p]) ++
  r.sends.map Output.send

/-- Flatten a handler result into the observable output sequence; within one
handler a terminal callback is always the last action (spec section 5:
resources are released and the result callback is invoked last). -/
def render {σ : Type} (r : StepRes σ) : List Output :=
  renderCore r ++ (match r.term with | none => [] | some t => [t.toOutput])

/-- Number of terminal callback invocations in an output sequence. -/
def terminalCount (tr : List Output) : ℕ :=
  tr.countP (fun o => Output.isTerminal o)

/-- The sequence of progress values in an output sequence. -/
def progressValues (tr : List Output) : List ℚ :=
  tr.filterMap (fun o => match o with | Output.progress p => some p | _ => none)

/-- `MAVLinkMissionTransfer::retries` (header line 314): the retry limit
constant, 5. -/
def MAVLinkMissionTransfer.retries : ℕ := 5

/-- Modelled from the spec: the accepted coordinate-frame set of upload
preflight, spec section 4.1 ("minimally: global, global-relative,
global-int, local-NED, mission, terrain-relative"), as MAVLink `MAV_FRAME`
numbers (the implementation's policy set is not part of the header). -/
def acceptedFrame (frame : ℕ) : Bool :=
  decide (frame ∈ [0, 1, 2, 3, 5, 6, 10, 11])

/-- Whether the sequence numbers of a list of items are exactly
`0, 1, ..., length - 1` (upload preflight, spec section 4.1). -/
def seqsConsecutive (items : List ItemInt) : Bool :=
  (List.range items.length).all fun i =>
    (items.get? i).elim false (fun it => decide (it.seq = i))

/-- `UploadWorkItem::Step` (header lines 148-151). -/
inductive UploadStep where
  | SendCount
  | SendItems
deriving DecidableEq

/-- State of an `UploadWorkItem` (header lines 114-159): mission type tag,
the stored item list, protocol step, `_next_sequence`, `_retries_done`, and
the base-class `_started` / `_done` flags. -/
structure UploadState where
  type : ℕ
  items : List ItemInt
  step : UploadStep
  nextSequence : ℕ
  retriesDone : ℕ
  started : Bool
  done : Bool
deriving DecidableEq

/-- A freshly constructed `UploadWorkItem` (header member initializers,
lines 148-158, and base lines 109-110). -/
def UploadState.init (type : ℕ) (items : List ItemInt) : UploadState :=
  ⟨type, items, UploadStep.SendCount, 0, 0, false, false⟩

/-- Finish an upload: mark done and invoke the result callback
(`UploadWorkItem::callback_and_reset`, header line 144). -/
def uFin (s : UploadState) (r : Result) (sends : List OutMsg)
    (prog : Option ℚ) : StepRes UploadState :=
  ⟨{ s with done := true }, sends, prog, some (Term.res r)⟩

/-- Modelled from the spec: handling of `MISSION_REQUEST_INT(seq, T)` by an
upload (spec section 4.1 state machine): `seq = next_sequence` (with an item
still to send) sends item `seq`, reports progress `seq/|L|` and advances;
`seq = next_sequence - 1` is a benign peer retransmit and resends without
advancing; any other `seq` terminates `InvalidSequence`. -/
def uploadHandleRequest (s : UploadState) (seq : ℕ) : StepRes UploadState :=
  if h : seq = s.nextSequence ∧ seq < s.items.length then
    ⟨{ s with
         step := UploadStep.SendItems
         nextSequence := seq + 1
         retriesDone := 0 },
     [OutMsg.missionItemInt (s.items.get ⟨seq, h.2⟩)],
     some ((seq : ℚ) / (s.items.length : ℚ)), none⟩
  else if seq + 1 = s.nextSequence then
    ⟨{ s with step := UploadStep.SendItems },
     (s.items.get? seq).elim [] (fun it => [OutMsg.missionItemInt it]),
     none, none⟩
  else uFin s Result.InvalidSequence [] none

/-- Modelled from the spec: what an upload resends on a timeout retry
(spec section 4.1): the count in `SendCount`, the last sent item in
`SendItems`. -/
def uploadResend (s : UploadState) : List OutMsg :=
  match s.step with
  | UploadStep.SendCount => [OutMsg.missionCount s.items.length s.type]
  | UploadStep.SendItems =>
      (s.items.get? (s.nextSequence - 1)).elim []
        (fun it => [OutMsg.missionItemInt it])

/-- Modelled from the spec: the `UploadWorkItem` state machine (spec
sections 4.1 and 5; the implementation is not part of the header).  `intS`
is the engine-wide int-messages-supported flag read at start.  Once `done`,
every handler is a no-op; before `start`, only `cancel` acts (it finishes
`Cancelled` without emitting).  `start` runs the preflight checks in spec
order and otherwise emits `MISSION_COUNT(|L|, T)` with initial progress 0.
A premature `MISSION_ACK(ACCEPTED)` terminates `ProtocolError` (spec
section 9 design note) unless all items were already confirmed. -/
def uploadStep (intS : Bool) (s : UploadState) (e : Event) :
    StepRes UploadState :=
  if s.done then StepRes.noop s else
  match e with
  | Event.start =>
      if s.started then StepRes.noop s
      else if !intS then uFin s Result.IntMessagesNotSupported [] none
      else if s.items.any (fun it => decide (it.mission_type ≠ s.type)) then
        uFin s Result.MissionTypeNotConsistent [] none
      else if !seqsConsecutive s.items then
        uFin s Result.InvalidSequence [] none
      else if s.items.any (fun it => !acceptedFrame it.frame) then
        uFin s Result.UnsupportedFrame [] none
      else
        ⟨{ s with started := true },
         [OutMsg.missionCount s.items.length s.type], some 0, none⟩
  | Event.cancel =>
      if s.started then
        uFin s Result.Cancelled
          [OutMsg.missionAck s.type AckCode.operationCancelled] none
      else uFin s Result.Cancelled [] none
  | Event.timeout =>
      if !s.started then StepRes.noop s
      else if s.retriesDone < MAVLinkMissionTransfer.retries then
        ⟨{ s with retriesDone := s.retriesDone + 1 }, uploadResend s,
         none, none⟩
      else uFin s Result.Timeout [] none
  | Event.missionRequestInt seq ty =>
      if !s.started then StepRes.noop s
      else if ty ≠ s.type then uFin s Result.MissionTypeNotConsistent [] none
      else uploadHandleRequest s seq
  | Event.missionRequest _ _ =>
      if !s.started then StepRes.noop s
      else uFin s Result.Unsupported [] none
  | Event.missionAck ty ack =>
      if !s.started then StepRes.noop s
      else if ty ≠ s.type then uFin s Result.MissionTypeNotConsistent [] none
      else if ack = AckCode.accepted then
        if s.nextSequence = s.items.length then
          uFin s Result.Success [] (some 1)
        else uFin s Result.ProtocolError [] none
      else uFin s (ackToResult ack) [] none
  | _ => StepRes.noop s

/-- `DownloadWorkItem::Step` (header lines 238-241). -/
inductive DownloadStep where
  | RequestList
  | RequestItem
deriving DecidableEq

/-- State of a `DownloadWorkItem` (header lines 206-250): mission type tag,
accumulated items, protocol step, `_next_sequence`, `_expected_count`,
`_retries_done`, and the base-class `_started` / `_done` flags. -/
structure DownloadState where
  type : ℕ
  items : List ItemInt
  step : DownloadStep
  nextSequence : ℕ
  expectedCount : ℕ
  retriesDone : ℕ
  started : Bool
  done : Bool
deriving DecidableEq

/-- A freshly constructed `DownloadWorkItem` (header member initializers,
lines 238-249, and base lines 109-110). -/
def DownloadState.init (type : ℕ) : DownloadState :=
  ⟨type, [], DownloadStep.RequestList, 0, 0, 0, false, false⟩

/-- Finish a download: mark done and invoke the result-and-items callback
(`DownloadWorkItem::callback_and_reset`, header line 234).  On every
non-success termination the partial list is discarded (spec section 8,
scenario f). -/
def dFin (s : DownloadState) (r : Result) (items : List ItemInt)
    (sends : List OutMsg) (prog : Option ℚ) : StepRes DownloadState :=
  ⟨{ s with done := true }, sends, prog, some (Term.resItems r items)⟩

/-- Modelled from the spec: what a download resends on a timeout retry
(spec section 4.2): the list request in `RequestList`, the current item
request in `RequestItem`.  The request is addressed to the autopilot
component (1). -/
def downloadResend (s : DownloadState) : List OutMsg :=
  match s.step with
  | DownloadStep.RequestList => [OutMsg.missionRequestList s.type]
  | DownloadStep.RequestItem =>
      [OutMsg.missionRequestInt s.nextSequence s.type 1]

/-- Modelled from the spec: the `DownloadWorkItem` state machine (spec
sections 4.2 and 5; the implementation is not part of the header).  Once
`done`, every handler is a no-op; before `start`, only `cancel` acts
(finishing `Cancelled` without emitting).  An item with
`seq = next_sequence` is appended and progress `next_sequence / expected`
reported; `seq = next_sequence - 1` is a benign duplicate; any other `seq`
terminates `InvalidSequence`; a wrong tag terminates
`MissionTypeNotConsistent`. -/
def downloadStep (s : DownloadState) (e : Event) : StepRes DownloadState :=
  if s.done then StepRes.noop s else
  match e with
  | Event.start =>
      if s.started then StepRes.noop s
      else
        ⟨{ s with started := true }, [OutMsg.missionRequestList s.type],
         none, none⟩
  | Event.cancel =>
      if s.started then
        dFin s Result.Cancelled []
          [OutMsg.missionAck s.type AckCode.operationCancelled] none
      else dFin s Result.Cancelled [] [] none
  | Event.timeout =>
      if !s.started then StepRes.noop s
      else if s.retriesDone < MAVLinkMissionTransfer.retries then
        ⟨{ s with retriesDone := s.retriesDone + 1 }, downloadResend s,
         none, none⟩
      else dFin s Result.Timeout [] [] none
  | Event.missionCount n ty =>
      if !s.started then StepRes.noop s
      else
        match s.step with
        | DownloadStep.RequestList =>
            if ty ≠ s.type then
              dFin s Result.MissionTypeNotConsistent [] [] none
            else if n = 0 then
              dFin s Result.Success []
                [OutMsg.missionAck s.type AckCode.accepted] none
            else
              ⟨{ s with
                   step := DownloadStep.RequestItem
                   expectedCount := n
                   nextSequence := 0
                   retriesDone := 0 },
               [OutMsg.missionRequestInt 0 s.type 1], none, none⟩
        | DownloadStep.RequestItem => StepRes.noop s
  | Event.missionItemInt it =>
      if !s.started then StepRes.noop s
      else
        match s.step with
        | DownloadStep.RequestList => StepRes.noop s
        | DownloadStep.RequestItem =>
            if it.mission_type ≠ s.type then
              dFin s Result.MissionTypeNotConsistent [] [] none
            else if it.seq = s.nextSequence ∧
                s.nextSequence < s.expectedCount then
              if s.nextSequence + 1 = s.expectedCount then
                dFin s Result.Success (s.items ++ [it])
                  [OutMsg.missionAck s.type AckCode.accepted]
                  (some (((s.nextSequence : ℚ) + 1) / (s.expectedCount : ℚ)))
              else
                ⟨{ s with
                     items := s.items ++ [it]
                     nextSequence := s.nextSequence + 1
                     retriesDone := 0 },
                 [OutMsg.missionRequestInt (s.nextSequence + 1) s.type 1],
                 some (((s.nextSequence : ℚ) + 1) / (s.expectedCount : ℚ)),
                 none⟩
            else if it.seq + 1 = s.nextSequence then StepRes.noop s
            else dFin s Result.InvalidSequence [] [] none
  | Event.missionAck ty ack =>
      if !s.started then StepRes.noop s
      else if ty ≠ s.type then
        dFin s Result.MissionTypeNotConsistent [] [] none
      else if ack = AckCode.accepted then
        dFin s Result.ProtocolError [] [] none
      else dFin s (ackToResult ack) [] [] none
  | _ => StepRes.noop s

/-- `ReceiveIncomingMission::Step` (header lines 191-194; the member
initializer is `RequestList`). -/
inductive ReceiveStep where
  | RequestList
  | RequestItem
deriving DecidableEq

/-- State of a `ReceiveIncomingMission` (header lines 161-204): mission type
tag, accumulated items, protocol step, `_next_sequence`, `_expected_count`,
`_retries_done`, the constructor parameters `_mission_count` and
`_target_component`, and the base-class `_started` / `_done` flags. -/
structure ReceiveState where
  type : ℕ
  items : List ItemInt
  step : ReceiveStep
  nextSequence : ℕ
  expectedCount : ℕ
  retriesDone : ℕ
  missionCount : ℕ
  targetComponent : ℕ
  started : Bool
  done : Bool
deriving DecidableEq

/-- A freshly constructed `ReceiveIncomingMission` for a previously observed
`MISSION_COUNT(missionCount, type)` from `targetComponent` (header member
initializers, lines 191-203, with `_mission_count` and `_target_component`
set from the constructor arguments). -/
def ReceiveState.init (type missionCount targetComponent : ℕ) :
    ReceiveState :=
  ⟨type, [], ReceiveStep.RequestList, 0, 0, 0, missionCount,
   targetComponent, false, false⟩

/-- Finish a receive-incoming transfer: mark done and invoke the
result-and-items callback (`ReceiveIncomingMission::callback_and_reset`,
header line 189). -/
def rFin (s : ReceiveState) (r : Result) (items : List ItemInt)
    (sends : List OutMsg) : StepRes ReceiveState :=
  ⟨{ s with done := true }, sends, none, some (Term.resItems r items)⟩

/-- Modelled from the spec: the `ReceiveIncomingMission` state machine (spec
sections 4.3 and 5; the implementation is not part of the header): the pull
pattern of section 4.2 toward `target_component`, entered at `RequestItem`
with `expected_count = mission_count`; with `mission_count = 0` it instead
acknowledges and finishes `Success` immediately without any request.  It
has no progress callback (header lines 163-171). -/
def receiveStep (s : ReceiveState) (e : Event) : StepRes ReceiveState :=
  if s.done then StepRes.noop s else
  match e with
  | Event.start =>
      if s.started then StepRes.noop s
      else if s.missionCount = 0 then
        ⟨{ s with
             started := true
             done := true },
         [OutMsg.missionAck s.type AckCode.accepted], none,
         some (Term.resItems Result.Success [])⟩
      else
        ⟨{ s with
             started := true
             step := ReceiveStep.RequestItem
             expectedCount := s.missionCount
             nextSequence := 0 },
         [OutMsg.missionRequestInt 0 s.type s.targetComponent], none, none⟩
  | Event.cancel =>
      if s.started then
        rFin s Result.Cancelled []
          [OutMsg.missionAck s.type AckCode.operationCancelled]
      else rFin s Result.Cancelled [] []
  | Event.timeout =>
      if !s.started then StepRes.noop s
      else if s.retriesDone < MAVLinkMissionTransfer.retries then
        ⟨{ s with retriesDone := s.retriesDone + 1 },
         [OutMsg.missionRequestInt s.nextSequence s.type s.targetComponent],
         none, none⟩
      else rFin s Result.Timeout [] []
  | Event.missionItemInt it =>
      if !s.started then StepRes.noop s
      else
        match s.step with
        | ReceiveStep.RequestList => StepRes.noop s
        | ReceiveStep.RequestItem =>
            if it.mission_type ≠ s.type then
              rFin s Result.MissionTypeNotConsistent [] []
            else if it.seq = s.nextSequence ∧
                s.nextSequence < s.expectedCount then
              if s.nextSequence + 1 = s.expectedCount then
                rFin s Result.Success (s.items ++ [it])
                  [OutMsg.missionAck s.type AckCode.accepted]
              else
                ⟨{ s with
                     items := s.items ++ [it]
                     nextSequence := s.nextSequence + 1
                     retriesDone := 0 },
                 [OutMsg.missionRequestInt (s.nextSequence + 1) s.type
                    s.targetComponent], none, none⟩
            else if it.seq + 1 = s.nextSequence then StepRes.noop s
            else rFin s Result.InvalidSequence [] []
  | _ => StepRes.noop s

/-- State of a `ClearWorkItem` (header lines 252-280): mission type tag,
`_retries_done`, and the base-class `_started` / `_done` flags. -/
structure ClearState where
  type : ℕ
  retriesDone : ℕ
  started : Bool
  done : Bool
deriving DecidableEq

/-- A freshly constructed `ClearWorkItem` (header member initializers,
lines 277-279, and base lines 109-110). -/
def ClearState.init (type : ℕ) : ClearState := ⟨type, 0, false, false⟩

/-- Finish a clear transaction: mark done and invoke the result callback
(`ClearWorkItem::callback_and_reset`, header line 275). -/
def cFin (s : ClearState) (r : Result) (sends : List OutMsg) :
    StepRes ClearState :=
  ⟨{ s with done := true }, sends, none, some (Term.res r)⟩

/-- Modelled from the spec: the `ClearWorkItem` state machine (spec section
4.4; the implementation is not part of the header): emit
`MISSION_CLEAR_ALL(T)`, await `MISSION_ACK` mapped as in section 4.1, retry
up to 5 times; cancel yields `Cancelled` without further emission. -/
def clearStep (s : ClearState) (e : Event) : StepRes ClearState :=
  if s.done then StepRes.noop s else
  match e with
  | Event.start =>
      if s.started then StepRes.noop s
      else
        ⟨{ s with started := true }, [OutMsg.missionClearAll s.type],
         none, none⟩
  | Event.cancel => cFin s Result.Cancelled []
  | Event.timeout =>
      if !s.started then StepRes.noop s
      else if s.retriesDone < MAVLinkMissionTransfer.retries then
        ⟨{ s with retriesDone := s.retriesDone + 1 },
         [OutMsg.missionClearAll s.type], none, none⟩
      else cFin s Result.Timeout []
  | Event.missionAck ty ack =>
      if !s.started then StepRes.noop s
      else if ty ≠ s.type then cFin s Result.MissionTypeNotConsistent []
      else cFin s (ackToResult ack) []
  | _ => StepRes.noop s

/-- State of a `SetCurrentWorkItem` (header lines 282-312): `_current`
(a signed `int`), `_retries_done`, and the base-class `_started` / `_done`
flags. -/
structure SetCurrentState where
  current : ℤ
  retriesDone : ℕ
  started : Bool
  done : Bool
deriving DecidableEq

/-- A freshly constructed `SetCurrentWorkItem` (header member initializers,
lines 308-311, with `_current` set from the constructor argument). -/
def SetCurrentState.init (current : ℤ) : SetCurrentState :=
  ⟨current, 0, false, false⟩

/-- Finish a set-current transaction: mark done and invoke the result
callback (`SetCurrentWorkItem::callback_and_reset`, header line 306). -/
def sFin (s : SetCurrentState) (r : Result) (sends : List OutMsg) :
    StepRes SetCurrentState :=
  ⟨{ s with done := true }, sends, none, some (Term.res r)⟩

/-- Modelled from the spec: the `SetCurrentWorkItem` state machine (spec
section 4.5; the implementation is not part of the header): preflight
`current < 0` finishes `CurrentInvalid` before emitting; otherwise emit
`MISSION_SET_CURRENT(current)` and await a `MISSION_CURRENT` whose `seq`
equals `current` (other `seq` values are older broadcasts and ignored);
timeout retries up to 5 times; cancel yields `Cancelled`. -/
def setCurrentStep (s : SetCurrentState) (e : Event) :
    StepRes SetCurrentState :=
  if s.done then StepRes.noop s else
  match e with
  | Event.start =>
      if s.started then StepRes.noop s
      else if s.current < 0 then sFin s Result.CurrentInvalid []
      else
        ⟨{ s with started := true }, [OutMsg.missionSetCurrent s.current],
         none, none⟩
  | Event.cancel => sFin s Result.Cancelled []
  | Event.timeout =>
      if !s.started then StepRes.noop s
      else if s.retriesDone < MAVLinkMissionTransfer.retries then
        ⟨{ s with retriesDone := s.retriesDone + 1 },
         [OutMsg.missionSetCurrent s.current], none, none⟩
      else sFin s Result.Timeout []
  | Event.missionCurrent seq =>
      if !s.started then StepRes.noop s
      else if (seq : ℤ) = s.current then sFin s Result.Success []
      else StepRes.noop s
  | _ => StepRes.noop s

/-- One queued WorkItem of any of the five kinds (the `WorkItem` base class
hierarchy of the header). -/
inductive WorkState where
  | upload (s : UploadState)
  | download (s : DownloadState)
  | receive (s : ReceiveState)
  | clear (s : ClearState)
  | setCurrent (s : SetCurrentState)
deriving DecidableEq

/-- The `_done` flag of a WorkItem (`WorkItem::is_done`, header line 96). -/
def WorkState.done : WorkState → Bool
  | WorkState.upload s => s.done
  | WorkState.download s => s.done
  | WorkState.receive s => s.done
  | WorkState.clear s => s.done
  | WorkState.setCurrent s => s.done

/-- The `_started` flag of a WorkItem (`WorkItem::has_started`, header
line 95). -/
def WorkState.started : WorkState → Bool
  | WorkState.upload s => s.started
  | WorkState.download s => s.started
  | WorkState.receive s => s.started
  | WorkState.clear s => s.started
  | WorkState.setCurrent s => s.started

/-- The `_retries_done` counter of a WorkItem. -/
def WorkState.retriesDone : WorkState → ℕ
  | WorkState.upload s => s.retriesDone
  | WorkState.download s => s.retriesDone
  | WorkState.receive s => s.retriesDone
  | WorkState.clear s => s.retriesDone
  | WorkState.setCurrent s => s.retriesDone

/-- Lift a per-machine handler result to the `WorkState` level. -/
def liftRes {σ : Type} (f : σ → WorkState) (r : StepRes σ) :
    StepRes WorkState :=
  ⟨f r.st, r.sends, r.prog, r.term⟩

/-- Modelled from the spec: one serialized event-handler invocation on a
WorkItem (spec section 5: every entry point holds the item's mutex for its
whole body, so the state machine evolves one event at a time).  `intS` is
the engine's int-messages-supported flag, read by upload preflight. -/
def wstep (intS : Bool) (w : WorkState) (e : Event) : StepRes WorkState :=
  match w with
  | WorkState.upload s => liftRes WorkState.upload (uploadStep intS s e)
  | WorkState.download s => liftRes WorkState.download (downloadStep s e)
  | WorkState.receive s => liftRes WorkState.receive (receiveStep s e)
  | WorkState.clear s => liftRes WorkState.clear (clearStep s e)
  | WorkState.setCurrent s => liftRes WorkState.setCurrent (setCurrentStep s e)

/-- Run a step function over a serialized event sequence, collecting the
final state and the concatenated observable outputs. -/
def runSR {σ : Type} (step : σ → Event → StepRes σ) :
    σ → List Event → σ × List Output
  | s, [] => (s, [])
  | s, e :: evs =>
    let r := step s e
    let rest := runSR step r.st evs
    (rest.1, render r ++ rest.2)

/-- A whole-lifetime run of one WorkItem. -/
def wrun (intS : Bool) (w : WorkState) (evs : List Event) :
    WorkState × List Output :=
  runSR (wstep intS) w evs

/-- Constructor arguments of the five kinds of WorkItem. -/
inductive InitParams where
  | upload (type : ℕ) (items : List ItemInt)
  | download (type : ℕ)
  | receive (type : ℕ) (missionCount : ℕ) (targetComponent : ℕ)
  | clear (type : ℕ)
  | setCurrent (current : ℤ)

/-- A freshly constructed WorkItem of any kind. -/
def mkWorkItem : InitParams → WorkState
  | InitParams.upload t l => WorkState.upload (UploadState.init t l)
  | InitParams.download t => WorkState.download (DownloadState.init t)
  | InitParams.receive t n c => WorkState.receive (ReceiveState.init t n c)
  | InitParams.clear t => WorkState.clear (ClearState.init t)
  | InitParams.setCurrent c => WorkState.setCurrent (SetCurrentState.init c)

/-- Well-formedness of a WorkItem state: an upload in `SendItems` has sent
some item already, so the index of the last sent item is in range.  Holds
in every reachable state; only the upload machine needs a condition. -/
def WorkState.wf : WorkState → Prop
  | WorkState.upload s =>
      s.step = UploadStep.SendItems → s.nextSequence - 1 < s.items.length
  | _ => True

/-- Lower bound on every future progress value of an upload: 0 before the
first item is confirmed, `(next_sequence - 1) / |L|` afterwards, 1 once
done. -/
def UploadState.plow (s : UploadState) : ℚ :=
  if s.done then 1
  else if s.started = false then 0
  else
    match s.step with
    | UploadStep.SendCount => 0
    | UploadStep.SendItems =>
        min 1 (((s.nextSequence - 1 : ℕ) : ℚ) / (s.items.length : ℚ))

/-- Lower bound on every future progress value of a download: 0 before the
count arrives, `next_sequence / expected_count` afterwards, 1 once done. -/
def DownloadState.plow (s : DownloadState) : ℚ :=
  if s.done then 1
  else if s.started = false then 0
  else
    match s.step with
    | DownloadStep.RequestList => 0
    | DownloadStep.RequestItem =>
        min 1 ((s.nextSequence : ℚ) / (s.expectedCount : ℚ))

/-- Lower bound on every future progress value of a WorkItem; only uploads
and downloads have a progress callback (header lines 124, 215). -/
def wplow : WorkState → ℚ
  | WorkState.upload s => s.plow
  | WorkState.download s => s.plow
  | _ => 0

/-- A non-owning handle to a queued WorkItem (the `std::weak_ptr<WorkItem>`
returned by the three list-transfer submissions, header lines 326-342). -/
structure Handle where
  idx : ℕ
deriving DecidableEq

/-- Engine state of `MAVLinkMissionTransfer` (header lines 357-365): the
work queue and the engine-wide int-messages-supported flag. -/
structure MAVLinkMissionTransfer where
  intMessagesSupported : Bool
  workQueue : List WorkState

/-- A freshly constructed engine (header member initializers, lines
363-365): empty queue, `_int_messages_supported{true}`. -/
def MAVLinkMissionTransfer.init : MAVLinkMissionTransfer := ⟨true, []⟩

/-- `MAVLinkMissionTransfer::set_int_messages_supported` (header line
351). -/
def MAVLinkMissionTransfer.set_int_messages_supported
    (e : MAVLinkMissionTransfer) (supported : Bool) :
    MAVLinkMissionTransfer :=
  { e with intMessagesSupported := supported }

/-- `MAVLinkMissionTransfer::upload_items_async` (header lines 326-330):
enqueues a new `UploadWorkItem` holding its own copy of the item list and
returns a non-owning handle (`std::weak_ptr<WorkItem>`) to it. -/
def MAVLinkMissionTransfer.upload_items_async (e : MAVLinkMissionTransfer)
    (type : ℕ) (items : List ItemInt) :
    MAVLinkMissionTransfer × Option Handle :=
  ({ e with
       workQueue := e.workQueue ++ [WorkState.upload
         (UploadState.init type items)] },
   some ⟨e.workQueue.length⟩)

/-- `MAVLinkMissionTransfer::download_items_async` (header lines 332-335):
enqueues a new `DownloadWorkItem` and returns a non-owning handle. -/
def MAVLinkMissionTransfer.download_items_async (e : MAVLinkMissionTransfer)
    (type : ℕ) : MAVLinkMissionTransfer × Option Handle :=
  ({ e with
       workQueue := e.workQueue ++ [WorkState.download
         (DownloadState.init type)] },
   some ⟨e.workQueue.length⟩)

/-- `MAVLinkMissionTransfer::receive_incoming_items_async` (header lines
338-342): enqueues a new `ReceiveIncomingMission` and returns a non-owning
handle. -/
def MAVLinkMissionTransfer.receive_incoming_items_async
    (e : MAVLinkMissionTransfer) (type missionCount targetComponent : ℕ) :
    MAVLinkMissionTransfer × Option Handle :=
  ({ e with
       workQueue := e.workQueue ++ [WorkState.receive
         (ReceiveState.init type missionCount targetComponent)] },
   some ⟨e.workQueue.length⟩)

/-- `MAVLinkMissionTransfer::clear_items_async` (header line 344): enqueues
a new `ClearWorkItem`; the C++ return type is `void`, so no handle is
returned to the caller. -/
def MAVLinkMissionTransfer.clear_items_async (e : MAVLinkMissionTransfer)
    (type : ℕ) : MAVLinkMissionTransfer × Option Handle :=
  ({ e with
       workQueue := e.workQueue ++ [WorkState.clear (ClearState.init type)] },
   none)

/-- `MAVLinkMissionTransfer::set_current_item_async` (header line 346):
enqueues a new `SetCurrentWorkItem`; the C++ return type is `void`, so no
handle is returned to the caller. -/
def MAVLinkMissionTransfer.set_current_item_async
    (e : MAVLinkMissionTransfer) (current : ℤ) :
    MAVLinkMissionTransfer × Option Handle :=
  ({ e with
       workQueue := e.workQueue ++ [WorkState.setCurrent
         (SetCurrentState.init current)] },
   none)

/-- A heap of `std::vector<ItemInt>` values, indexed by location, used to
state the aliasing claim about `upload_items_async`. -/
structure VectorStore where
  vectors : List (List ItemInt)

/-- Allocate a fresh vector in the store, returning its location. -/
def VectorStore.alloc (st : VectorStore) (v : List ItemInt) :
    VectorStore × ℕ :=
  (⟨st.vectors ++ [v]⟩, st.vectors.length)

/-- Overwrite the vector at a location (mutation through a live
reference). -/
def VectorStore.write (st : VectorStore) (loc : ℕ) (v : List ItemInt) :
    VectorStore :=
  ⟨st.vectors.set loc v⟩

/-- Read the vector at a location. -/
def VectorStore.read (st : VectorStore) (loc : ℕ) : List ItemInt :=
  st.vectors.getD loc []

/-- `upload_items_async` takes `items` by const reference (header line 328)
and `UploadWorkItem` stores `std::vector<ItemInt> _items` by value (header
line 153), so submission allocates a fresh copy of the caller's vector as
the work item's own storage and returns its location. -/
def submitUploadItems (st : VectorStore) (callerLoc : ℕ) :
    VectorStore × ℕ :=
  st.alloc (st.read callerLoc)

theorem terminalCount_append (a b : List Output) :
    terminalCount (a ++ b) = terminalCount a + terminalCount b :=
  List.countP_append _ a b

theorem progressValues_append (a b : List Output) :
    progressValues (a ++ b) = progressValues a ++ progressValues b :=
  List.filterMap_append a b _

theorem Term.toOutput_isTerminal (t : Term) : t.toOutput.isTerminal = true := by
  cases t <;> rfl

theorem terminalCount_renderCore {σ : Type} (r : StepRes σ) :
    terminalCount (renderCore r) = 0 := by
  rw [terminalCount, List.countP_eq_zero]
  intro o ho
  rw [renderCore] at ho
  rcases List.mem_append.mp ho with h | h
  · cases hp : r.prog <;> rw [hp] at h <;> simp at h
    subst h; simp [Output.isTerminal]
  · obtain ⟨m, _, rfl⟩ := List.mem_map.mp h
    simp [Output.isTerminal]

theorem progressValues_renderCore {σ : Type} (r : StepRes σ) :
    progressValues (renderCore r) =
      (match r.prog with | none => [] | some p => [p]) := by
  rw [renderCore, progressValues_append]
  have hs : progressValues (r.sends.map Output.send) = [] := by
    rw [progressValues, List.filterMap_eq_nil_iff]
    intro o ho
    obtain ⟨m, _, rfl⟩ := List.mem_map.mp ho
    rfl
  cases hp : r.prog <;> simp [hp, hs, progressValues]

theorem render_term_none {σ : Type} (r : StepRes σ) (h : r.term = none) :
    render r = renderCore r := by
  rw [render, h]; simp

theorem render_term_some {σ : Type} (r : StepRes σ) (t : Term)
    (h : r.term = some t) : render r = renderCore r ++ [t.toOutput] := by
  rw [render, h]

theorem render_noop {σ : Type} (s : σ) : render (StepRes.noop s) = [] := rfl

theorem runSR_nil {σ : Type} (step : σ → Event → StepRes σ) (s : σ) :
    runSR step s [] = (s, []) := rfl

theorem runSR_cons {σ : Type} (step : σ → Event → StepRes σ) (s : σ)
    (e : Event) (evs : List Event) :
    runSR step s (e :: evs) =
      ((runSR step (step s e).st evs).1,
       render (step s e) ++ (runSR step (step s e).st evs).2) := rfl

theorem runSR_done {σ : Type} (step : σ → Event → StepRes σ) (dn : σ → Bool)
    (hnoop : ∀ s e, dn s = true → step s e = StepRes.noop s) :
    ∀ (evs : List Event) (s : σ), dn s = true → runSR step s evs = (s, []) := by
  intro evs
  induction evs with
  | nil => intro s _; rfl
  | cons e evs ih =>
    intro s hs
    rw [runSR_cons, hnoop s e hs]
    show ((runSR step s evs).1,
      render (StepRes.noop s) ++ (runSR step s evs).2) = (s, [])
    rw [ih s hs, render_noop]
    rfl

theorem runSR_shape {σ : Type} (step : σ → Event → StepRes σ) (dn : σ → Bool)
    (hnoop : ∀ s e, dn s = true → step s e = StepRes.noop s)
    (hterm : ∀ s e, dn s = false →
      (step s e).term.isSome = dn (step s e).st) :
    ∀ (evs : List Event) (s : σ), dn s = false →
      (terminalCount (runSR step s evs).2 = 0 ∧
        dn (runSR step s evs).1 = false) ∨
      (∃ l t, (runSR step s evs).2 = l ++ [t] ∧ t.isTerminal = true ∧
        terminalCount l = 0 ∧ dn (runSR step s evs).1 = true) := by
  intro evs
  induction evs with
  | nil =>
    intro s hs
    exact Or.inl ⟨rfl, hs⟩
  | cons e evs ih =>
    intro s hs
    have ht := hterm s e hs
    rw [runSR_cons]
    by_cases hd : dn (step s e).st
    · rw [hd] at ht
      obtain ⟨tm, htm⟩ := Option.isSome_iff_exists.mp ht
      rw [runSR_done step dn hnoop evs _ hd]
      refine Or.inr ⟨renderCore (step s e), tm.toOutput, ?_, ?_, ?_, hd⟩
      · simp [render_term_some (step s e) tm htm]
      · exact Term.toOutput_isTerminal tm
      · exact terminalCount_renderCore _
    · have hd' : dn (step s e).st = false := by simpa using hd
      rw [hd'] at ht
      have htn : (step s e).term = none := by
        cases hx : (step s e).term
        · rfl
        · rw [hx] at ht; simp at ht
      have hre : render (step s e) = renderCore (step s e) :=
        render_term_none _ htn
      rcases ih (step s e).st hd' with ⟨h0, hf⟩ | ⟨l, t, hl, htt, hc, hf⟩
      · refine Or.inl ⟨?_, hf⟩
        rw [hre, terminalCount_append, h0, terminalCount_renderCore]
      · refine Or.inr ⟨renderCore (step s e) ++ l, t, ?_, htt, ?_, hf⟩
        · rw [hre, hl, List.append_assoc]
        · rw [terminalCount_append, hc, terminalCount_renderCore]

theorem runSR_terminalCount {σ : Type} (step : σ → Event → StepRes σ)
    (dn : σ → Bool)
    (hnoop : ∀ s e, dn s = true → step s e = StepRes.noop s)
    (hterm : ∀ s e, dn s = false →
      (step s e).term.isSome = dn (step s e).st)
    (evs : List Event) (s : σ) (hs : dn s = false) :
    terminalCount (runSR step s evs).2 =
      if dn (runSR step s evs).1 then 1 else 0 := by
  rcases runSR_shape step dn hnoop hterm evs s hs with ⟨h0, hf⟩ |
    ⟨l, t, hl, htt, hc, hf⟩
  · rw [h0, hf]; rfl
  · rw [hl, hf, terminalCount_append, hc]
    simp [terminalCount, List.countP_cons, htt]

theorem concat_decomp_nil (L : List Output) (T : Output)
    (hL : terminalCount L = 0) (l₁ l₂ : List Output) (t : Output)
    (heq : L ++ [T] = l₁ ++ t :: l₂) (ht : t.isTerminal = true) : l₂ = [] := by
  rcases List.append_eq_append_iff.mp heq with ⟨a, _, ha⟩ | ⟨c, hc1, hc2⟩
  · have := congrArg List.length ha
    simp at this
    have hlen : l₂.length = 0 := by omega
    exact List.eq_nil_of_length_eq_zero hlen
  · cases c with
    | nil =>
      simp at hc2
      exact hc2.2
    | cons x xs =>
      exfalso
      have hx : t = x := by
        simp at hc2
        exact hc2.1
      have hmem : t ∈ L := by
        rw [hc1, hx]
        exact List.mem_append.mpr (Or.inr (List.mem_cons_self x xs))
      have := List.countP_eq_zero.mp hL t hmem
      simp [ht] at this

theorem runSR_nothing_after_terminal {σ : Type}
    (step : σ → Event → StepRes σ) (dn : σ → Bool)
    (hnoop : ∀ s e, dn s = true → step s e = StepRes.noop s)
    (hterm : ∀ s e, dn s = false →
      (step s e).term.isSome = dn (step s e).st)
    (evs : List Event) (s : σ) (hs : dn s = false)
    (l₁ l₂ : List Output) (t : Output)
    (heq : (runSR step s evs).2 = l₁ ++ t :: l₂)
    (ht : t.isTerminal = true) : l₂ = [] := by
  rcases runSR_shape step dn hnoop hterm evs s hs with ⟨h0, _⟩ |
    ⟨l, tt, hl, _, hc, _⟩
  · exfalso
    rw [heq, terminalCount_append] at h0
    have : terminalCount (t :: l₂) = 0 := by omega
    have := List.countP_eq_zero.mp this t (List.mem_cons_self t l₂)
    simp [ht] at this
  · exact concat_decomp_nil l tt hc l₁ l₂ t (hl ▸ heq) ht

theorem runSR_progress {σ : Type} (step : σ → Event → StepRes σ)
    (dn : σ → Bool) (plow : σ → ℚ)
    (hnoop : ∀ s e, dn s = true → step s e = StepRes.noop s)
    (hprog : ∀ s e, dn s = false →
      (∀ p, (step s e).prog = some p →
        plow s ≤ p ∧ p ≤ plow (step s e).st ∧ 0 ≤ p ∧ p ≤ 1) ∧
      plow s ≤ plow (step s e).st) :
    ∀ (evs : List Event) (s : σ), dn s = false →
      List.Sorted (fun a b => a ≤ b)
        (progressValues (runSR step s evs).2) ∧
      ∀ p ∈ progressValues (runSR step s evs).2,
        plow s ≤ p ∧ 0 ≤ p ∧ p ≤ 1 := by
  intro evs
  induction evs with
  | nil =>
    intro s _
    rw [runSR_nil]
    exact ⟨List.sorted_nil, by intro p hp; simp [progressValues] at hp⟩
  | cons e evs ih =>
    intro s hs
    obtain ⟨hp, hmono⟩ := hprog s e hs
    have hpr : progressValues (render (step s e)) =
        (match (step s e).prog with | none => [] | some p => [p]) := by
      rw [render, progressValues_append, progressValues_renderCore]
      cases hx : (step s e).term
      · simp [progressValues]
      · rename_i tm
        have : progressValues [tm.toOutput] = [] := by cases tm <;> rfl
        rw [this, List.append_nil]
    rw [runSR_cons]
    by_cases hd : dn (step s e).st
    · rw [runSR_done step dn hnoop evs _ hd]
      simp only [List.append_nil]
      rw [hpr]
      cases hx : (step s e).prog
      · exact ⟨List.sorted_nil, by intro p hp; simp at hp⟩
      · rename_i p
        obtain ⟨h1, _, h3, h4⟩ := hp p hx
        refine ⟨List.sorted_singleton p, ?_⟩
        intro q hq
        simp at hq
        subst hq
        exact ⟨h1, h3, h4⟩
    · have hd' : dn (step s e).st = false := by simpa using hd
      obtain ⟨ihs, ihm⟩ := ih (step s e).st hd'
      rw [progressValues_append, hpr]
      cases hx : (step s e).prog
      · simp only [List.nil_append]
        refine ⟨ihs, ?_⟩
        intro p hpmem
        obtain ⟨hq1, hq2, hq3⟩ := ihm p hpmem
        exact ⟨hmono.trans hq1, hq2, hq3⟩
      · rename_i p
        obtain ⟨h1, h2, h3, h4⟩ := hp p hx
        simp only [List.singleton_append]
        constructor
        · refine List.sorted_cons.mpr ⟨?_, ihs⟩
          intro q hq
          exact h2.trans (ihm q hq).1
        · intro q hq
          rcases List.mem_cons.mp hq with rfl | hq
          · exact ⟨h1, h3, h4⟩
          · obtain ⟨hq1, hq2, hq3⟩ := ihm q hq
            exact ⟨hmono.trans hq1, hq2, hq3⟩

theorem uploadStep_noop (intS : Bool) (s : UploadState) (e : Event)
    (h : s.done = true) : uploadStep intS s e = StepRes.noop s := by
  cases e <;> simp [uploadStep, h]

theorem downloadStep_noop (s : DownloadState) (e : Event)
    (h : s.done = true) : downloadStep s e = StepRes.noop s := by
  cases e <;> simp [downloadStep, h]

theorem receiveStep_noop (s : ReceiveState) (e : Event)
    (h : s.done = true) : receiveStep s e = StepRes.noop s := by
  cases e <;> simp [receiveStep, h]

theorem clearStep_noop (s : ClearState) (e : Event)
    (h : s.done = true) : clearStep s e = StepRes.noop s := by
  cases e <;> simp [clearStep, h]

theorem setCurrentStep_noop (s : SetCurrentState) (e : Event)
    (h : s.done = true) : setCurrentStep s e = StepRes.noop s := by
  cases e <;> simp [setCurrentStep, h]

theorem uploadStep_term (intS : Bool) (s : UploadState) (e : Event)
    (h : s.done = false) :
    (uploadStep intS s e).term.isSome = (uploadStep intS s e).st.done := by
  cases e <;>
    simp [uploadStep, h, uFin, uploadHandleRequest, StepRes.noop] <;>
    (try split_ifs) <;>
    simp_all [uFin, uploadHandleRequest, StepRes.noop]

theorem downloadStep_term (s : DownloadState) (e : Event)
    (h : s.done = false) :
    (downloadStep s e).term.isSome = (downloadStep s e).st.done := by
  cases e <;>
    (try cases hs : s.step) <;>
    simp [downloadStep, h, dFin, StepRes.noop, hs] <;>
    (try split_ifs) <;>
    simp_all [dFin, StepRes.noop]

theorem receiveStep_term (s : ReceiveState) (e : Event)
    (h : s.done = false) :
    (receiveStep s e).term.isSome = (receiveStep s e).st.done := by
  cases e <;>
    (try cases hs : s.step) <;>
    simp [receiveStep, h, rFin, StepRes.noop, hs] <;>
    (try split_ifs) <;>
    simp_all [rFin, StepRes.noop]

theorem clearStep_term (s : ClearState) (e : Event) (h : s.done = false) :
    (clearStep s e).term.isSome = (clearStep s e).st.done := by
  cases e <;>
    simp [clearStep, h, cFin, StepRes.noop] <;>
    (try split_ifs) <;>
    simp_all [cFin, StepRes.noop]

theorem setCurrentStep_term (s : SetCurrentState) (e : Event)
    (h : s.done = false) :
    (setCurrentStep s e).term.isSome = (setCurrentStep s e).st.done := by
  cases e <;>
    simp [setCurrentStep, h, sFin, StepRes.noop] <;>
    (try split_ifs) <;>
    simp_all [sFin, StepRes.noop]

theorem wstep_noop (intS : Bool) (w : WorkState) (e : Event)
    (h : w.done = true) : wstep intS w e = StepRes.noop w := by
  cases w with
  | upload s =>
    rw [wstep, uploadStep_noop intS s e h]; rfl
  | download s =>
    rw [wstep, downloadStep_noop s e h]; rfl
  | receive s =>
    rw [wstep, receiveStep_noop s e h]; rfl
  | clear s =>
    rw [wstep, clearStep_noop s e h]; rfl
  | setCurrent s =>
    rw [wstep, setCurrentStep_noop s e h]; rfl

theorem div_nat_nonneg (a b : ℕ) : 0 ≤ (a : ℚ) / (b : ℚ) := by positivity

theorem div_nat_le_one {a b : ℕ} (h : a ≤ b) : (a : ℚ) / (b : ℚ) ≤ 1 := by
  rcases Nat.eq_zero_or_pos b with hb | hb
  · subst hb
    have : a = 0 := Nat.le_zero.mp h
    subst this
    norm_num
  · rw [div_le_one (by exact_mod_cast hb)]
    exact_mod_cast h

theorem div_nat_mono {a b c : ℕ} (h : a ≤ b) :
    (a : ℚ) / (c : ℚ) ≤ (b : ℚ) / (c : ℚ) := by
  rcases Nat.eq_zero_or_pos c with hc | hc
  · subst hc; norm_num
  · have hab : (a : ℚ) ≤ (b : ℚ) := by exact_mod_cast h
    gcongr

theorem UploadState.plow_nonneg (s : UploadState) : 0 ≤ s.plow := by
  rw [UploadState.plow]
  split_ifs
  · norm_num
  · norm_num
  · cases hstep : s.step
    · norm_num
    · exact le_min (by norm_num) (div_nat_nonneg _ _)

theorem UploadState.plow_le_one (s : UploadState) : s.plow ≤ 1 := by
  rw [UploadState.plow]
  split_ifs
  · norm_num
  · norm_num
  · cases hstep : s.step
    · norm_num
    · exact min_le_left _ _

theorem DownloadState.dplow_nonneg (s : DownloadState) : 0 ≤ s.plow := by
  rw [DownloadState.plow]
  split_ifs
  · norm_num
  · norm_num
  · cases hstep : s.step
    · norm_num
    · exact le_min (by norm_num) (div_nat_nonneg _ _)

theorem DownloadState.dplow_le_one (s : DownloadState) : s.plow ≤ 1 := by
  rw [DownloadState.plow]
  split_ifs
  · norm_num
  · norm_num
  · cases hstep : s.step
    · norm_num
    · exact min_le_left _ _

theorem UploadState.plow_updDone (s : UploadState) :
    ({ s with done := true } : UploadState).plow = 1 := rfl

theorem UploadState.plow_updRetries (s : UploadState) (n : ℕ) :
    ({ s with retriesDone := n } : UploadState).plow = s.plow := rfl

theorem DownloadState.dplow_updDone (s : DownloadState) :
    ({ s with done := true } : DownloadState).plow = 1 := rfl

theorem DownloadState.dplow_updRetries (s : DownloadState) (n : ℕ) :
    ({ s with retriesDone := n } : DownloadState).plow = s.plow := rfl

theorem UploadState.plow_of_not_started (s : UploadState)
    (hd : s.done = false) (hs : s.started = false) : s.plow = 0 := by
  rw [UploadState.plow]
  simp [hd, hs]

theorem DownloadState.dplow_of_not_started (s : DownloadState)
    (hd : s.done = false) (hs : s.started = false) : s.plow = 0 := by
  rw [DownloadState.plow]
  simp [hd, hs]

theorem UploadState.plow_advance (s : UploadState) (k : ℕ)
    (hd : s.done = false) (hs : s.started = true) :
    ({ s with
         step := UploadStep.SendItems
         nextSequence := k + 1
         retriesDone := 0 } : UploadState).plow =
      min 1 ((k : ℚ) / (s.items.length : ℚ)) := by
  rw [UploadState.plow]
  simp [hd, hs]

theorem UploadState.plow_mk (ty : ℕ) (its : List ItemInt) (st : UploadStep)
    (ns rd : ℕ) (b d : Bool) :
    (UploadState.mk ty its st ns rd b d).plow =
      if d = true then 1
      else if b = false then 0
      else
        match st with
        | UploadStep.SendCount => 0
        | UploadStep.SendItems =>
            min 1 (((ns - 1 : ℕ) : ℚ) / (its.length : ℚ)) := rfl

theorem UploadState.plow_updStep (s : UploadState) :
    s.plow ≤ ({ s with step := UploadStep.SendItems } : UploadState).plow := by
  show s.plow ≤ (UploadState.mk s.type s.items UploadStep.SendItems
    s.nextSequence s.retriesDone s.started s.done).plow
  rw [UploadState.plow_mk, UploadState.plow]
  split_ifs
  · norm_num
  · norm_num
  · cases hstep : s.step
    · exact le_min (by norm_num) (div_nat_nonneg _ _)
    · exact le_refl _

theorem uploadStep_prog (intS : Bool) (s : UploadState) (e : Event)
    (h : s.done = false) :
    (∀ p, (uploadStep intS s e).prog = some p →
      s.plow ≤ p ∧ p ≤ (uploadStep intS s e).st.plow ∧ 0 ≤ p ∧ p ≤ 1) ∧
    s.plow ≤ (uploadStep intS s e).st.plow := by
  have hA : ∀ (r : Result) (ms : List OutMsg),
      (∀ p, (uFin s r ms none).prog = some p → s.plow ≤ p ∧
        p ≤ (uFin s r ms none).st.plow ∧ 0 ≤ p ∧ p ≤ 1) ∧
      s.plow ≤ (uFin s r ms none).st.plow := by
    intro r ms
    constructor
    · intro p hp; simp [uFin] at hp
    · show s.plow ≤ ({ s with done := true } : UploadState).plow
      rw [UploadState.plow_updDone]
      exact UploadState.plow_le_one s
  have hN : (∀ p, (StepRes.noop s).prog = some p → s.plow ≤ p ∧
        p ≤ (StepRes.noop s).st.plow ∧ 0 ≤ p ∧ p ≤ 1) ∧
      s.plow ≤ (StepRes.noop s).st.plow := by
    constructor
    · intro p hp; simp [StepRes.noop] at hp
    · exact le_refl _
  cases e with
  | start =>
    rw [uploadStep]
    split_ifs with hc1 hc2 hc3 hc4 hc5 hc6
    · exact hN
    · exact hN
    · exact hA _ _
    · exact hA _ _
    · exact hA _ _
    · exact hA _ _
    · have hst : s.started = false := by
        revert hc2; cases s.started <;> simp
      have h0 : s.plow = 0 := UploadState.plow_of_not_started s h hst
      constructor
      · intro p hp
        simp only [Option.some.injEq] at hp
        subst hp
        refine ⟨by rw [h0], ?_, le_refl 0, by norm_num⟩
        exact UploadState.plow_nonneg _
      · rw [h0]
        exact UploadState.plow_nonneg _
  | cancel =>
    rw [uploadStep]
    split_ifs with hc1 hc2
    · exact hN
    · exact hA _ _
    · exact hA _ _
  | timeout =>
    rw [uploadStep]
    split_ifs with hc1 hc2 hc3
    · exact hN
    · exact hN
    · constructor
      · intro p hp; simp at hp
      · exact le_of_eq
          (UploadState.plow_updRetries s (s.retriesDone + 1)).symm
    · exact hA _ _
  | missionRequestInt seq ty =>
    rw [uploadStep]
    split_ifs with hc1 hc2 hc3
    · exact hN
    · exact hN
    · exact hA _ _
    · have hst : s.started = true := by
        revert hc2; cases s.started <;> simp
      rw [uploadHandleRequest]
      split_ifs with hd1 hd2
      · obtain ⟨hseq, hlt⟩ := hd1
        have hls : s.plow ≤ (seq : ℚ) / (s.items.length : ℚ) := by
          rw [UploadState.plow]
          rw [if_neg (by simp [h]), if_neg (by simp [hst])]
          cases hstep : s.step
          · exact div_nat_nonneg _ _
          · rw [← hseq]
            exact (min_le_right _ _).trans (div_nat_mono (Nat.sub_le seq 1))
        have hadv :
            ({ s with
                 step := UploadStep.SendItems
                 nextSequence := seq + 1
                 retriesDone := 0 } : UploadState).plow =
              min 1 ((seq : ℚ) / (s.items.length : ℚ)) :=
          UploadState.plow_advance s seq h hst
        constructor
        · intro p hp
          simp only [Option.some.injEq] at hp
          subst hp
          refine ⟨hls, ?_, div_nat_nonneg _ _, div_nat_le_one hlt.le⟩
          show (seq : ℚ) / (s.items.length : ℚ) ≤
            ({ s with
                 step := UploadStep.SendItems
                 nextSequence := seq + 1
                 retriesDone := 0 } : UploadState).plow
          rw [hadv]
          exact le_min (div_nat_le_one hlt.le) (le_refl _)
        · show s.plow ≤
            ({ s with
                 step := UploadStep.SendItems
                 nextSequence := seq + 1
                 retriesDone := 0 } : UploadState).plow
          rw [hadv]
          exact le_min (UploadState.plow_le_one s) hls
      · constructor
        · intro p hp; simp at hp
        · exact UploadState.plow_updStep s
      · exact hA _ _
  | missionRequest seq ty =>
    rw [uploadStep]
    split_ifs with hc1 hc2
    · exact hN
    · exact hN
    · exact hA _ _
  | missionAck ty ack =>
    rw [uploadStep]
    split_ifs with hc1 hc2 hc3 hc4 hc5
    · exact hN
    · exact hN
    · exact hA _ _
    · constructor
      · intro p hp
        simp only [uFin, Option.some.injEq] at hp
        subst hp
        refine ⟨UploadState.plow_le_one s, ?_, by norm_num, le_refl 1⟩
        show (1 : ℚ) ≤ ({ s with done := true } : UploadState).plow
        rw [UploadState.plow_updDone]
      · show s.plow ≤ ({ s with done := true } : UploadState).plow
        rw [UploadState.plow_updDone]
        exact UploadState.plow_le_one s
    · exact hA _ _
    · exact hA _ _
  | missionCount n ty =>
    have he : uploadStep intS s (Event.missionCount n ty) = StepRes.noop s := by
      simp [uploadStep]
    rw [he]; exact hN
  | missionItemInt it =>
    have he : uploadStep intS s (Event.missionItemInt it) = StepRes.noop s := by
      simp [uploadStep]
    rw [he]; exact hN
  | missionCurrent seq =>
    have he : uploadStep intS s (Event.missionCurrent seq) = StepRes.noop s := by
      simp [uploadStep]
    rw [he]; exact hN

theorem DownloadState.dplow_mk (ty : ℕ) (its : List ItemInt)
    (st : DownloadStep) (ns ec rd : ℕ) (b d : Bool) :
    (DownloadState.mk ty its st ns ec rd b d).plow =
      if d = true then 1
      else if b = false then 0
      else
        match st with
        | DownloadStep.RequestList => 0
        | DownloadStep.RequestItem => min 1 ((ns : ℚ) / (ec : ℚ)) := rfl

theorem DownloadState.plow_item (s : DownloadState) (hd : s.done = false)
    (hs : s.started = true) (hstep : s.step = DownloadStep.RequestItem) :
    s.plow = min 1 ((s.nextSequence : ℚ) / (s.expectedCount : ℚ)) := by
  rw [DownloadState.plow]
  simp [hd, hs, hstep]

theorem nat_cast_succ_div_le {k m : ℕ} (h : k < m) :
    ((k : ℚ) + 1) / (m : ℚ) ≤ 1 := by
  have : ((k : ℚ) + 1) = ((k + 1 : ℕ) : ℚ) := by push_cast; ring
  rw [this]
  exact div_nat_le_one h

theorem nat_cast_succ_div_nonneg (k m : ℕ) :
    0 ≤ ((k : ℚ) + 1) / (m : ℚ) := by positivity

theorem min_div_le_succ_div (k m : ℕ) :
    min 1 ((k : ℚ) / (m : ℚ)) ≤ ((k : ℚ) + 1) / (m : ℚ) := by
  have h1 : ((k : ℚ) + 1) = ((k + 1 : ℕ) : ℚ) := by push_cast; ring
  rw [h1]
  exact (min_le_right _ _).trans (div_nat_mono (Nat.le_succ k))

theorem downloadStep_prog (s : DownloadState) (e : Event)
    (h : s.done = false) :
    (∀ p, (downloadStep s e).prog = some p →
      s.plow ≤ p ∧ p ≤ (downloadStep s e).st.plow ∧ 0 ≤ p ∧ p ≤ 1) ∧
    s.plow ≤ (downloadStep s e).st.plow := by
  have hA : ∀ (r : Result) (its : List ItemInt) (ms : List OutMsg),
      (∀ p, (dFin s r its ms none).prog = some p → s.plow ≤ p ∧
        p ≤ (dFin s r its ms none).st.plow ∧ 0 ≤ p ∧ p ≤ 1) ∧
      s.plow ≤ (dFin s r its ms none).st.plow := by
    intro r its ms
    constructor
    · intro p hp; simp [dFin] at hp
    · show s.plow ≤ ({ s with done := true } : DownloadState).plow
      rw [DownloadState.dplow_updDone]
      exact DownloadState.dplow_le_one s
  have hN : (∀ p, (StepRes.noop s).prog = some p → s.plow ≤ p ∧
        p ≤ (StepRes.noop s).st.plow ∧ 0 ≤ p ∧ p ≤ 1) ∧
      s.plow ≤ (StepRes.noop s).st.plow := by
    constructor
    · intro p hp; simp [StepRes.noop] at hp
    · exact le_refl _
  cases e with
  | start =>
    rw [downloadStep]
    split_ifs with hc1 hc2
    · exact hN
    · exact hN
    · constructor
      · intro p hp; simp at hp
      · have hst : s.started = false := by
          revert hc2; cases s.started <;> simp
        rw [DownloadState.dplow_of_not_started s h hst]
        exact DownloadState.dplow_nonneg _
  | cancel =>
    rw [downloadStep]
    split_ifs with hc1 hc2
    · exact hN
    · exact hA _ _ _
    · exact hA _ _ _
  | timeout =>
    rw [downloadStep]
    split_ifs with hc1 hc2 hc3
    · exact hN
    · exact hN
    · constructor
      · intro p hp; simp at hp
      · exact le_of_eq
          (DownloadState.dplow_updRetries s (s.retriesDone + 1)).symm
    · exact hA _ _ _
  | missionCount n ty =>
    rw [downloadStep]
    by_cases hc1 : s.done = true
    · rw [if_pos hc1]; exact hN
    rw [if_neg hc1]
    by_cases hc2 : (!s.started) = true
    · rw [if_pos hc2]; exact hN
    rw [if_neg hc2]
    have hst : s.started = true := by
      revert hc2; cases s.started <;> simp
    cases hstep : s.step
    · split_ifs with hd1 hd2
      · exact hA _ _ _
      · exact hA _ _ _
      · constructor
        · intro p hp; simp at hp
        · have hp0 : s.plow = 0 := by
            rw [DownloadState.plow]
            simp [h, hst, hstep]
          rw [hp0]
          show (0 : ℚ) ≤ (DownloadState.mk s.type s.items
            DownloadStep.RequestItem 0 n 0 s.started s.done).plow
          exact DownloadState.dplow_nonneg _
    · exact hN
  | missionItemInt it =>
    rw [downloadStep]
    by_cases hc1 : s.done = true
    · rw [if_pos hc1]; exact hN
    rw [if_neg hc1]
    by_cases hc2 : (!s.started) = true
    · rw [if_pos hc2]; exact hN
    rw [if_neg hc2]
    have hst : s.started = true := by
      revert hc2; cases s.started <;> simp
    cases hstep : s.step
    · exact hN
    · have hplow : s.plow =
          min 1 ((s.nextSequence : ℚ) / (s.expectedCount : ℚ)) :=
        DownloadState.plow_item s h hst hstep
      split_ifs with hd1 hd2 hd3 hd4
      · exact hA _ _ _
      · -- final item: finish Success with progress (next + 1) / expected
        obtain ⟨hseq, hlt⟩ := hd2
        constructor
        · intro p hp
          simp only [dFin, Option.some.injEq] at hp
          subst hp
          refine ⟨?_, ?_, nat_cast_succ_div_nonneg _ _,
            nat_cast_succ_div_le hlt⟩
          · rw [hplow]
            exact min_div_le_succ_div _ _
          · show ((s.nextSequence : ℚ) + 1) / (s.expectedCount : ℚ) ≤
              ({ s with done := true } : DownloadState).plow
            rw [DownloadState.dplow_updDone]
            exact nat_cast_succ_div_le hlt
        · show s.plow ≤ ({ s with done := true } : DownloadState).plow
          rw [DownloadState.dplow_updDone]
          exact DownloadState.dplow_le_one s
      · -- middle item: append and request the next one
        obtain ⟨hseq, hlt⟩ := hd2
        have hadv : (DownloadState.mk s.type (s.items ++ [it])
            DownloadStep.RequestItem (s.nextSequence + 1) s.expectedCount 0
            s.started s.done).plow =
              min 1 (((s.nextSequence + 1 : ℕ) : ℚ) / (s.expectedCount : ℚ)) := by
          rw [DownloadState.dplow_mk]
          simp [h, hst]
        have hcast : ((s.nextSequence : ℚ) + 1) =
            ((s.nextSequence + 1 : ℕ) : ℚ) := by push_cast; ring
        constructor
        · intro p hp
          simp only [Option.some.injEq] at hp
          subst hp
          refine ⟨?_, ?_, nat_cast_succ_div_nonneg _ _,
            nat_cast_succ_div_le hlt⟩
          · rw [hplow]
            exact min_div_le_succ_div _ _
          · show ((s.nextSequence : ℚ) + 1) / (s.expectedCount : ℚ) ≤
              (DownloadState.mk s.type (s.items ++ [it])
                DownloadStep.RequestItem (s.nextSequence + 1)
                s.expectedCount 0 s.started s.done).plow
            rw [hadv, hcast]
            exact le_min (div_nat_le_one hlt) (le_refl _)
        · show s.plow ≤ (DownloadState.mk s.type (s.items ++ [it])
            DownloadStep.RequestItem (s.nextSequence + 1)
            s.expectedCount 0 s.started s.done).plow
          rw [hadv, hplow]
          refine le_min (min_le_left _ _) ?_
          rw [← hcast]
          exact min_div_le_succ_div _ _
      · exact hN
      · exact hA _ _ _
  | missionAck ty ack =>
    rw [downloadStep]
    split_ifs with hc1 hc2 hc3 hc4
    · exact hN
    · exact hN
    · exact hA _ _ _
    · exact hA _ _ _
    · exact hA _ _ _
  | missionRequestInt seq ty =>
    have he : downloadStep s (Event.missionRequestInt seq ty) =
        StepRes.noop s := by
      simp [downloadStep]
    rw [he]; exact hN
  | missionRequest seq ty =>
    have he : downloadStep s (Event.missionRequest seq ty) =
        StepRes.noop s := by
      simp [downloadStep]
    rw [he]; exact hN
  | missionCurrent seq =>
    have he : downloadStep s (Event.missionCurrent seq) = StepRes.noop s := by
      simp [downloadStep]
    rw [he]; exact hN

theorem receiveStep_prog_none (s : ReceiveState) (e : Event) :
    (receiveStep s e).prog = none := by
  cases e <;>
    (try cases hstep : s.step) <;>
    simp [receiveStep, rFin, StepRes.noop, hstep] <;>
    (try split_ifs) <;>
    simp [rFin, StepRes.noop]

theorem clearStep_prog_none (s : ClearState) (e : Event) :
    (clearStep s e).prog = none := by
  cases e <;>
    simp [clearStep, cFin, StepRes.noop] <;>
    (try split_ifs) <;>
    simp [cFin, StepRes.noop]

theorem setCurrentStep_prog_none (s : SetCurrentState) (e : Event) :
    (setCurrentStep s e).prog = none := by
  cases e <;>
    simp [setCurrentStep, sFin, StepRes.noop] <;>
    (try split_ifs) <;>
    simp [sFin, StepRes.noop]

theorem wstep_term (intS : Bool) (w : WorkState) (e : Event)
    (h : w.done = false) :
    (wstep intS w e).term.isSome = (wstep intS w e).st.done := by
  cases w with
  | upload s => exact uploadStep_term intS s e h
  | download s => exact downloadStep_term s e h
  | receive s => exact receiveStep_term s e h
  | clear s => exact clearStep_term s e h
  | setCurrent s => exact setCurrentStep_term s e h

theorem wstep_prog (intS : Bool) (w : WorkState) (e : Event)
    (h : w.done = false) :
    (∀ p, (wstep intS w e).prog = some p →
      wplow w ≤ p ∧ p ≤ wplow (wstep intS w e).st ∧ 0 ≤ p ∧ p ≤ 1) ∧
    wplow w ≤ wplow (wstep intS w e).st := by
  cases w with
  | upload s => exact uploadStep_prog intS s e h
  | download s => exact downloadStep_prog s e h
  | receive s =>
    refine ⟨?_, le_refl 0⟩
    intro p hp
    have hnone : (receiveStep s e).prog = none := receiveStep_prog_none s e
    rw [show (wstep intS (WorkState.receive s) e).prog =
      (receiveStep s e).prog from rfl, hnone] at hp
    exact Option.noConfusion hp
  | clear s =>
    refine ⟨?_, le_refl 0⟩
    intro p hp
    have hnone : (clearStep s e).prog = none := clearStep_prog_none s e
    rw [show (wstep intS (WorkState.clear s) e).prog =
      (clearStep s e).prog from rfl, hnone] at hp
    exact Option.noConfusion hp
  | setCurrent s =>
    refine ⟨?_, le_refl 0⟩
    intro p hp
    have hnone : (setCurrentStep s e).prog = none := setCurrentStep_prog_none s e
    rw [show (wstep intS (WorkState.setCurrent s) e).prog =
      (setCurrentStep s e).prog from rfl, hnone] at hp
    exact Option.noConfusion hp

theorem mkWorkItem_done (p : InitParams) : (mkWorkItem p).done = false := by
  cases p <;> rfl

/-- C1: for every submitted WorkItem of any of the five kinds (Upload,
Download, ReceiveIncoming, Clear, SetCurrent) and every serialized sequence
of events driving it, the terminal result callback is invoked exactly once
over the item's whole lifetime — exactly once when the run reaches `done`
(whether by Success, a terminal error, or Cancelled), and never twice;
before the item is done it has fired zero times. -/
theorem mte_c1_result_callback_exactly_once (intS : Bool) (p : InitParams)
    (evs : List Event) :
    terminalCount (wrun intS (mkWorkItem p) evs).2 =
      if (wrun intS (mkWorkItem p) evs).1.done then 1 else 0 := by
  rw [wrun]
  exact runSR_terminalCount (wstep intS) WorkState.done
    (fun s e hs => wstep_noop intS s e hs)
    (fun s e hs => wstep_term intS s e hs)
    evs (mkWorkItem p) (mkWorkItem_done p)

/-- C2: for every run of an Upload or Download transfer, the sequence of
values passed to the progress callback is monotone nondecreasing, every
value lies in [0, 1], and no progress callback is invoked after the
terminal result callback of that transfer (the output trace models the
invocations made when a progress callback is supplied). -/
theorem mte_c2_progress_monotone_bounded (intS : Bool) (w : WorkState)
    (hw : (∃ t l, w = WorkState.upload (UploadState.init t l)) ∨
      (∃ t, w = WorkState.download (DownloadState.init t)))
    (evs : List Event) :
    List.Sorted (fun a b => a ≤ b) (progressValues (wrun intS w evs).2) ∧
    (∀ p ∈ progressValues (wrun intS w evs).2, 0 ≤ p ∧ p ≤ 1) ∧
    (∀ (l₁ l₂ : List Output) (t : Output),
      (wrun intS w evs).2 = l₁ ++ t :: l₂ → t.isTerminal = true →
      ∀ q, Output.progress q ∉ l₂) := by
  have hdone : w.done = false := by
    rcases hw with ⟨t, l, hwl⟩ | ⟨t, hwl⟩ <;> subst hwl <;> rfl
  rw [wrun]
  obtain ⟨hsorted, hmem⟩ := runSR_progress (wstep intS) WorkState.done wplow
    (fun s e hs => wstep_noop intS s e hs)
    (fun s e hs => wstep_prog intS s e hs)
    evs w hdone
  refine ⟨hsorted, ?_, ?_⟩
  · intro p hp
    exact ⟨(hmem p hp).2.1, (hmem p hp).2.2⟩
  · intro l₁ l₂ t heq ht q
    have hnil : l₂ = [] := runSR_nothing_after_terminal (wstep intS)
      WorkState.done
      (fun s e hs => wstep_noop intS s e hs)
      (fun s e hs => wstep_term intS s e hs) evs w hdone l₁ l₂ t heq ht
    rw [hnil]
    simp

/-- Witness for C2: the concrete empty-list upload, with an empty event
sequence, satisfies the progress guarantees. -/
theorem mte_c2_witness :
    List.Sorted (fun a b => a ≤ b)
      (progressValues
        (wrun true (WorkState.upload (UploadState.init 0 [])) []).2) ∧
    (∀ p ∈ progressValues
        (wrun true (WorkState.upload (UploadState.init 0 [])) []).2,
      0 ≤ p ∧ p ≤ 1) ∧
    (∀ (l₁ l₂ : List Output) (t : Output),
      (wrun true (WorkState.upload (UploadState.init 0 [])) []).2 =
        l₁ ++ t :: l₂ → t.isTerminal = true →
      ∀ q, Output.progress q ∉ l₂) :=
  mte_c2_progress_monotone_bounded true
    (WorkState.upload (UploadState.init 0 [])) (Or.inl ⟨0, [], rfl⟩) []

/-- C5: the engine-wide int-messages-supported flag is initially true
(header line 365), and for every upload started while the flag is false the
whole observable trace of the work item is the single terminal callback
`IntMessagesNotSupported`: it finishes before any message is sent and
nothing ever follows. -/
theorem mte_c5_int_messages_flag (t : ℕ) (items : List ItemInt)
    (evs : List Event) :
    MAVLinkMissionTransfer.init.intMessagesSupported = true ∧
    (wrun false (WorkState.upload (UploadState.init t items))
        (Event.start :: evs)).2 =
      [Output.result Result.IntMessagesNotSupported] := by
  refine ⟨rfl, ?_⟩
  have hstep : wstep false (WorkState.upload (UploadState.init t items))
      Event.start =
      ⟨WorkState.upload
        (UploadState.mk t items UploadStep.SendCount 0 0 false true),
       [], none, some (Term.res Result.IntMessagesNotSupported)⟩ := rfl
  have hrun := runSR_done (wstep false) WorkState.done
    (fun s e hs => wstep_noop false s e hs) evs
    (WorkState.upload (UploadState.mk t items UploadStep.SendCount 0 0
      false true)) rfl
  rw [wrun, runSR_cons, hstep]
  simp [hrun, render, renderCore, Term.toOutput]

/-- C6: every SetCurrentWorkItem constructed with a negative `current`
finishes with `CurrentInvalid` upon start: the whole observable trace is
the single terminal callback, so no outbound message is ever emitted. -/
theorem mte_c6_set_current_negative (intS : Bool) (cur : ℤ) (h : cur < 0)
    (evs : List Event) :
    (wrun intS (WorkState.setCurrent (SetCurrentState.init cur))
        (Event.start :: evs)).2 = [Output.result Result.CurrentInvalid] := by
  have hstep : wstep intS (WorkState.setCurrent (SetCurrentState.init cur))
      Event.start =
      ⟨WorkState.setCurrent (SetCurrentState.mk cur 0 false true), [], none,
       some (Term.res Result.CurrentInvalid)⟩ := by
    show liftRes WorkState.setCurrent
      (setCurrentStep (SetCurrentState.init cur) Event.start) = _
    rw [setCurrentStep]
    simp [SetCurrentState.init, sFin, h, liftRes]
  have hrun := runSR_done (wstep intS) WorkState.done
    (fun s e hs => wstep_noop intS s e hs) evs
    (WorkState.setCurrent (SetCurrentState.mk cur 0 false true)) rfl
  rw [wrun, runSR_cons, hstep]
  simp [hrun, render, renderCore, Term.toOutput]

/-- Witness for C6: `current = -1` finishes with `CurrentInvalid` and emits
nothing. -/
theorem mte_c6_witness :
    (wrun true (WorkState.setCurrent (SetCurrentState.init (-1)))
        [Event.start]).2 = [Output.result Result.CurrentInvalid] :=
  mte_c6_set_current_negative true (-1) (by norm_num) []

/-- C7: the retry limit of every timeout-driven step of every transfer kind
is the single constant `retries = 5` (header line 314): while
`retries_done < 5`, a timeout increments the counter and resends without
terminating; once 5 retries are exhausted, a timeout terminates with
result `Timeout` and sends nothing. -/
theorem mte_c7_retry_limit (intS : Bool) (w : WorkState) (hwf : w.wf)
    (hs : w.started = true) (hd : w.done = false) :
    MAVLinkMissionTransfer.retries = 5 ∧
    (w.retriesDone < MAVLinkMissionTransfer.retries →
      (wstep intS w Event.timeout).st.done = false ∧
      (wstep intS w Event.timeout).st.retriesDone = w.retriesDone + 1 ∧
      (wstep intS w Event.timeout).sends ≠ [] ∧
      (wstep intS w Event.timeout).term = none) ∧
    (MAVLinkMissionTransfer.retries ≤ w.retriesDone →
      (wstep intS w Event.timeout).st.done = true ∧
      (wstep intS w Event.timeout).sends = [] ∧
      (wstep intS w Event.timeout).term.map Term.result =
        some Result.Timeout) := by
  cases w with
  | upload s =>
    simp only [WorkState.done, WorkState.started, WorkState.retriesDone,
      WorkState.wf] at hd hs hwf ⊢
    refine ⟨rfl, ?_, ?_⟩
    · intro hlt
      have hst : uploadStep intS s Event.timeout =
          ⟨{ s with retriesDone := s.retriesDone + 1 }, uploadResend s,
           none, none⟩ := by
        rw [uploadStep]
        simp [hd, hs, hlt]
      rw [show wstep intS (WorkState.upload s) Event.timeout =
        liftRes WorkState.upload (uploadStep intS s Event.timeout) from rfl,
        hst]
      refine ⟨hd, rfl, ?_, rfl⟩
      show uploadResend s ≠ []
      cases hstep : s.step
      · simp [uploadResend, hstep]
      · obtain ⟨it, hit⟩ : ∃ it,
            s.items[s.nextSequence - 1]? = some it :=
          ⟨_, List.getElem?_eq_getElem (hwf hstep)⟩
        simp [uploadResend, hstep, hit]
    · intro hge
      have hst : uploadStep intS s Event.timeout =
          uFin s Result.Timeout [] none := by
        rw [uploadStep]
        simp [hd, hs, not_lt.mpr hge]
      rw [show wstep intS (WorkState.upload s) Event.timeout =
        liftRes WorkState.upload (uploadStep intS s Event.timeout) from rfl,
        hst]
      exact ⟨rfl, rfl, rfl⟩
  | download s =>
    simp only [WorkState.done, WorkState.started, WorkState.retriesDone,
      WorkState.wf] at hd hs hwf ⊢
    refine ⟨rfl, ?_, ?_⟩
    · intro hlt
      have hst : downloadStep s Event.timeout =
          ⟨{ s with retriesDone := s.retriesDone + 1 }, downloadResend s,
           none, none⟩ := by
        rw [downloadStep]
        simp [hd, hs, hlt]
      rw [show wstep intS (WorkState.download s) Event.timeout =
        liftRes WorkState.download (downloadStep s Event.timeout) from rfl,
        hst]
      refine ⟨hd, rfl, ?_, rfl⟩
      show downloadResend s ≠ []
      cases hstep : s.step <;> simp [downloadResend, hstep]
    · intro hge
      have hst : downloadStep s Event.timeout =
          dFin s Result.Timeout [] [] none := by
        rw [downloadStep]
        simp [hd, hs, not_lt.mpr hge]
      rw [show wstep intS (WorkState.download s) Event.timeout =
        liftRes WorkState.download (downloadStep s Event.timeout) from rfl,
        hst]
      exact ⟨rfl, rfl, rfl⟩
  | receive s =>
    simp only [WorkState.done, WorkState.started, WorkState.retriesDone,
      WorkState.wf] at hd hs hwf ⊢
    refine ⟨rfl, ?_, ?_⟩
    · intro hlt
      have hst : receiveStep s Event.timeout =
          ⟨{ s with retriesDone := s.retriesDone + 1 },
           [OutMsg.missionRequestInt s.nextSequence s.type
              s.targetComponent], none, none⟩ := by
        rw [receiveStep]
        simp [hd, hs, hlt]
      rw [show wstep intS (WorkState.receive s) Event.timeout =
        liftRes WorkState.receive (receiveStep s Event.timeout) from rfl,
        hst]
      exact ⟨hd, rfl, by simp [liftRes], rfl⟩
    · intro hge
      have hst : receiveStep s Event.timeout =
          rFin s Result.Timeout [] [] := by
        rw [receiveStep]
        simp [hd, hs, not_lt.mpr hge]
      rw [show wstep intS (WorkState.receive s) Event.timeout =
        liftRes WorkState.receive (receiveStep s Event.timeout) from rfl,
        hst]
      exact ⟨rfl, rfl, rfl⟩
  | clear s =>
    simp only [WorkState.done, WorkState.started, WorkState.retriesDone,
      WorkState.wf] at hd hs hwf ⊢
    refine ⟨rfl, ?_, ?_⟩
    · intro hlt
      have hst : clearStep s Event.timeout =
          ⟨{ s with retriesDone := s.retriesDone + 1 },
           [OutMsg.missionClearAll s.type], none, none⟩ := by
        rw [clearStep]
        simp [hd, hs, hlt]
      rw [show wstep intS (WorkState.clear s) Event.timeout =
        liftRes WorkState.clear (clearStep s Event.timeout) from rfl, hst]
      exact ⟨hd, rfl, by simp [liftRes], rfl⟩
    · intro hge
      have hst : clearStep s Event.timeout = cFin s Result.Timeout [] := by
        rw [clearStep]
        simp [hd, hs, not_lt.mpr hge]
      rw [show wstep intS (WorkState.clear s) Event.timeout =
        liftRes WorkState.clear (clearStep s Event.timeout) from rfl, hst]
      exact ⟨rfl, rfl, rfl⟩
  | setCurrent s =>
    simp only [WorkState.done, WorkState.started, WorkState.retriesDone,
      WorkState.wf] at hd hs hwf ⊢
    refine ⟨rfl, ?_, ?_⟩
    · intro hlt
      have hst : setCurrentStep s Event.timeout =
          ⟨{ s with retriesDone := s.retriesDone + 1 },
           [OutMsg.missionSetCurrent s.current], none, none⟩ := by
        rw [setCurrentStep]
        simp [hd, hs, hlt]
      rw [show wstep intS (WorkState.setCurrent s) Event.timeout =
        liftRes WorkState.setCurrent (setCurrentStep s Event.timeout) from
          rfl, hst]
      exact ⟨hd, rfl, by simp [liftRes], rfl⟩
    · intro hge
      have hst : setCurrentStep s Event.timeout =
          sFin s Result.Timeout [] := by
        rw [setCurrentStep]
        simp [hd, hs, not_lt.mpr hge]
      rw [show wstep intS (WorkState.setCurrent s) Event.timeout =
        liftRes WorkState.setCurrent (setCurrentStep s Event.timeout) from
          rfl, hst]
      exact ⟨rfl, rfl, rfl⟩

/-- Witness for C7: a started clear transaction with no retries spent
retries on its first timeout. -/
theorem mte_c7_witness :
    (wstep true (WorkState.clear (ClearState.mk 0 0 true false))
      Event.timeout).st.done = false ∧
    (wstep true (WorkState.clear (ClearState.mk 0 0 true false))
      Event.timeout).st.retriesDone = 0 + 1 ∧
    (wstep true (WorkState.clear (ClearState.mk 0 0 true false))
      Event.timeout).sends ≠ [] ∧
    (wstep true (WorkState.clear (ClearState.mk 0 0 true false))
      Event.timeout).term = none :=
  (mte_c7_retry_limit true (WorkState.clear (ClearState.mk 0 0 true false))
    trivial rfl rfl).2.1 (by decide)

/-- C4 counterexample: the ReceiveIncomingWorkItem constructed with
`mission_count = 0` (type 0, target component 1) does not begin its state
machine at step `RequestItem`, and its initial action is the acceptance
ACK, not `MISSION_REQUEST_INT(0, T)`: the claim fails at this input. -/
theorem mte_c4_counterexample :
    ¬ ((receiveStep (ReceiveState.init 0 0 1) Event.start).st.step =
          ReceiveStep.RequestItem ∧
       (receiveStep (ReceiveState.init 0 0 1) Event.start).sends =
          [OutMsg.missionRequestInt 0 0 1]) := by
  decide

/-- C4 (amended): every ReceiveIncomingWorkItem with nonzero
`mission_count` begins its state machine at step `RequestItem` with
`expected_count` equal to the constructor-supplied `mission_count`, and its
initial action on start is to emit `MISSION_REQUEST_INT(0, T)` toward
`target_component` (with `mission_count = 0` it instead acknowledges and
finishes `Success` immediately). -/
theorem mte_c4_receive_start (t mc tc : ℕ) (h : 0 < mc) :
    (receiveStep (ReceiveState.init t mc tc) Event.start).st.step =
        ReceiveStep.RequestItem ∧
    (receiveStep (ReceiveState.init t mc tc) Event.start).st.expectedCount =
        mc ∧
    (receiveStep (ReceiveState.init t mc tc) Event.start).st.started =
        true ∧
    (receiveStep (ReceiveState.init t mc tc) Event.start).sends =
        [OutMsg.missionRequestInt 0 t tc] ∧
    (receiveStep (ReceiveState.init t mc tc) Event.start).term = none := by
  have hmc : ¬ mc = 0 := Nat.pos_iff_ne_zero.mp h
  rw [receiveStep]
  simp [ReceiveState.init, hmc]

/-- Witness for C4 (amended): a receive of three items starts by requesting
item 0. -/
theorem mte_c4_witness :
    (receiveStep (ReceiveState.init 0 3 1) Event.start).st.step =
        ReceiveStep.RequestItem ∧
    (receiveStep (ReceiveState.init 0 3 1) Event.start).st.expectedCount =
        3 ∧
    (receiveStep (ReceiveState.init 0 3 1) Event.start).st.started = true ∧
    (receiveStep (ReceiveState.init 0 3 1) Event.start).sends =
        [OutMsg.missionRequestInt 0 0 1] ∧
    (receiveStep (ReceiveState.init 0 3 1) Event.start).term = none :=
  mte_c4_receive_start 0 3 1 (by decide)

theorem F32.ieeeEq_eq_true_iff (x y : F32) (hx : x.isNaN = false) :
    F32.ieeeEq x y = true ↔ x = y := by
  cases x with
  | nan => simp [F32.isNaN] at hx
  | val q =>
    cases y with
    | nan => simp [F32.ieeeEq]
    | val r => simp [F32.ieeeEq]

theorem F32.ieeeEq_refl (x : F32) (hx : x.isNaN = false) :
    F32.ieeeEq x x = true := by
  cases x with
  | nan => simp [F32.isNaN] at hx
  | val q => simp [F32.ieeeEq]

theorem F32.ieeeEq_symm (x y : F32) : F32.ieeeEq x y = F32.ieeeEq y x := by
  cases x <;> cases y <;> simp only [F32.ieeeEq]
  exact decide_eq_decide.mpr ⟨fun h => h.symm, fun h => h.symm⟩

theorem F32.ieeeEq_trans (x y z : F32) (h1 : F32.ieeeEq x y = true)
    (h2 : F32.ieeeEq y z = true) : F32.ieeeEq x z = true := by
  cases x <;> cases y <;> cases z <;> simp_all [F32.ieeeEq]

theorem F32.ieeeEq_self_nan (x : F32) (hx : x.isNaN = true) :
    F32.ieeeEq x x = false := by
  cases x with
  | nan => rfl
  | val q => simp [F32.isNaN] at hx

theorem ItemInt.eqOp_true_iff (a b : ItemInt) :
    ItemInt.eqOp a b = true ↔
      (a.seq = b.seq ∧ a.frame = b.frame ∧ a.command = b.command ∧
       a.current = b.current ∧ a.autocontinue = b.autocontinue ∧
       F32.ieeeEq a.param1 b.param1 = true ∧
       F32.ieeeEq a.param2 b.param2 = true ∧
       F32.ieeeEq a.param3 b.param3 = true ∧
       F32.ieeeEq a.param4 b.param4 = true ∧
       a.x = b.x ∧ a.y = b.y ∧ F32.ieeeEq a.z b.z = true ∧
       a.mission_type = b.mission_type) := by
  rw [ItemInt.eqOp]
  simp only [Bool.and_eq_true, decide_eq_true_eq]
  tauto

/-- C3 counterexample: an item whose `param1` is NaN has all thirteen
fields pairwise (structurally) equal to itself, yet `operator==` compares
it unequal to itself, so equality is not the structural equality of the
thirteen fields. -/
theorem mte_c3_counterexample :
    ¬ (ItemInt.eqOp nanItem nanItem = true ↔
        ItemInt.fieldsEq nanItem nanItem) := by
  decide

/-- C3 (amended): for items none of whose five float fields is NaN,
`operator==` holds if and only if all thirteen fields are pairwise equal
(with a NaN float field, `operator==` is false even against an identical
item, because float fields are compared with IEEE `==`). -/
theorem mte_c3_structural_equality (a b : ItemInt) (ha : a.hasNaN = false)
    (hb : b.hasNaN = false) :
    ItemInt.eqOp a b = true ↔ ItemInt.fieldsEq a b := by
  simp only [ItemInt.hasNaN, Bool.or_eq_false_iff] at ha
  obtain ⟨⟨⟨⟨h1, h2⟩, h3⟩, h4⟩, h5⟩ := ha
  rw [ItemInt.eqOp_true_iff, ItemInt.fieldsEq]
  rw [F32.ieeeEq_eq_true_iff _ _ h1, F32.ieeeEq_eq_true_iff _ _ h2,
    F32.ieeeEq_eq_true_iff _ _ h3, F32.ieeeEq_eq_true_iff _ _ h4,
    F32.ieeeEq_eq_true_iff _ _ h5]

/-- Witness for C3 (amended): the all-zero item, which has no NaN field,
equals itself both by `operator==` and structurally. -/
theorem mte_c3_witness :
    ItemInt.eqOp item0 item0 = true ↔ ItemInt.fieldsEq item0 item0 :=
  mte_c3_structural_equality item0 item0 (by decide) (by decide)

/-- C8: `operator==` is not reflexive in the presence of NaN — an item with
a NaN float field compares unequal to itself — while on items whose float
fields are all non-NaN it is reflexive; it is symmetric and transitive
unconditionally (two items can only compare equal when no NaN is
involved). -/
theorem mte_c8_nan_equality (a b c : ItemInt) :
    (a.hasNaN = true → ItemInt.eqOp a a = false) ∧
    (a.hasNaN = false → ItemInt.eqOp a a = true) ∧
    ItemInt.eqOp a b = ItemInt.eqOp b a ∧
    (ItemInt.eqOp a b = true → ItemInt.eqOp b c = true →
      ItemInt.eqOp a c = true) := by
  refine ⟨?_, ?_, ?_, ?_⟩
  · intro h
    by_contra hne
    have htrue : ItemInt.eqOp a a = true := by
      revert hne; cases ItemInt.eqOp a a <;> simp
    rw [ItemInt.eqOp_true_iff] at htrue
    obtain ⟨_, _, _, _, _, hq1, hq2, hq3, hq4, _, _, hqz, _⟩ := htrue
    have hok : ∀ x : F32, F32.ieeeEq x x = true → x.isNaN = false := by
      intro x hx
      cases x with
      | nan => simp [F32.ieeeEq] at hx
      | val q => rfl
    simp [ItemInt.hasNaN, hok _ hq1, hok _ hq2, hok _ hq3, hok _ hq4,
      hok _ hqz] at h
  · intro h
    simp only [ItemInt.hasNaN, Bool.or_eq_false_iff] at h
    obtain ⟨⟨⟨⟨h1, h2⟩, h3⟩, h4⟩, h5⟩ := h
    rw [ItemInt.eqOp_true_iff]
    exact ⟨rfl, rfl, rfl, rfl, rfl, F32.ieeeEq_refl _ h1,
      F32.ieeeEq_refl _ h2, F32.ieeeEq_refl _ h3, F32.ieeeEq_refl _ h4,
      rfl, rfl, F32.ieeeEq_refl _ h5, rfl⟩
  · have hiff : ItemInt.eqOp a b = true ↔ ItemInt.eqOp b a = true := by
      rw [ItemInt.eqOp_true_iff, ItemInt.eqOp_true_iff]
      constructor
      · rintro ⟨h1, h2, h3, h4, h5, h6, h7, h8, h9, h10, h11, h12, h13⟩
        rw [F32.ieeeEq_symm] at h6 h7 h8 h9 h12
        exact ⟨h1.symm, h2.symm, h3.symm, h4.symm, h5.symm, h6, h7, h8,
          h9, h10.symm, h11.symm, h12, h13.symm⟩
      · rintro ⟨h1, h2, h3, h4, h5, h6, h7, h8, h9, h10, h11, h12, h13⟩
        rw [F32.ieeeEq_symm] at h6 h7 h8 h9 h12
        exact ⟨h1.symm, h2.symm, h3.symm, h4.symm, h5.symm, h6, h7, h8,
          h9, h10.symm, h11.symm, h12, h13.symm⟩
    cases hab : ItemInt.eqOp a b <;> cases hba : ItemInt.eqOp b a <;>
      simp_all
  · intro h1 h2
    rw [ItemInt.eqOp_true_iff] at h1 h2 ⊢
    obtain ⟨g1, g2, g3, g4, g5, g6, g7, g8, g9, g10, g11, g12, g13⟩ := h1
    obtain ⟨k1, k2, k3, k4, k5, k6, k7, k8, k9, k10, k11, k12, k13⟩ := h2
    exact ⟨g1.trans k1, g2.trans k2, g3.trans k3, g4.trans k4, g5.trans k5,
      F32.ieeeEq_trans _ _ _ g6 k6, F32.ieeeEq_trans _ _ _ g7 k7,
      F32.ieeeEq_trans _ _ _ g8 k8, F32.ieeeEq_trans _ _ _ g9 k9,
      g10.trans k10, g11.trans k11, F32.ieeeEq_trans _ _ _ g12 k12,
      g13.trans k13⟩

/-- Witness for C8 at concrete items: NaN breaks reflexivity at `nanItem`,
and `item0` is equal to itself. -/
theorem mte_c8_witness :
    ItemInt.eqOp nanItem nanItem = false ∧
    ItemInt.eqOp item0 item0 = true ∧
    ItemInt.eqOp item0 nanItem = ItemInt.eqOp nanItem item0 ∧
    ItemInt.eqOp item0 item0 = true :=
  ⟨(mte_c8_nan_equality nanItem nanItem nanItem).1 (by decide),
   (mte_c8_nan_equality item0 item0 item0).2.1 (by decide),
   (mte_c8_nan_equality item0 nanItem item0).2.2.1,
   (mte_c8_nan_equality item0 item0 item0).2.2.2
     ((mte_c8_nan_equality item0 item0 item0).2.1 (by decide))
     ((mte_c8_nan_equality item0 item0 item0).2.1 (by decide))⟩

/-- C9: the three list-transfer submissions (upload, download,
receive-incoming) hand the caller a non-owning handle to the queued
WorkItem, while `clear_items_async` and `set_current_item_async` return
nothing (`void` in the header), so the caller of a Clear or SetCurrent
transfer receives no handle on which `cancel()` could be invoked. -/
theorem mte_c9_handles (e : MAVLinkMissionTransfer) (t mc tc : ℕ)
    (items : List ItemInt) (cur : ℤ) :
    (e.upload_items_async t items).2.isSome = true ∧
    (e.download_items_async t).2.isSome = true ∧
    (e.receive_incoming_items_async t mc tc).2.isSome = true ∧
    (e.clear_items_async t).2 = none ∧
    (e.set_current_item_async cur).2 = none :=
  ⟨rfl, rfl, rfl, rfl, rfl⟩

/-- C10: `upload_items_async` takes the item list by const reference and
the UploadWorkItem stores its own copy by value, so overwriting the
caller's vector after submission leaves the work item's stored list — and
hence the whole observable behaviour of the transfer — unchanged. -/
theorem mte_c10_upload_copies_items (st : VectorStore) (callerLoc : ℕ)
    (h : callerLoc < st.vectors.length) (mutated : List ItemInt)
    (intS : Bool) (t : ℕ) (evs : List Event) :
    VectorStore.read
        (VectorStore.write (submitUploadItems st callerLoc).1 callerLoc
          mutated)
        (submitUploadItems st callerLoc).2 = st.read callerLoc ∧
    wrun intS (WorkState.upload (UploadState.init t
        (VectorStore.read
          (VectorStore.write (submitUploadItems st callerLoc).1 callerLoc
            mutated)
          (submitUploadItems st callerLoc).2))) evs =
      wrun intS (WorkState.upload (UploadState.init t
        (st.read callerLoc))) evs := by
  have hkey : VectorStore.read
      (VectorStore.write (submitUploadItems st callerLoc).1 callerLoc
        mutated)
      (submitUploadItems st callerLoc).2 = st.read callerLoc := by
    show VectorStore.read
      (VectorStore.write ⟨st.vectors ++ [st.read callerLoc]⟩ callerLoc
        mutated) st.vectors.length = st.read callerLoc
    rw [VectorStore.write, VectorStore.read]
    have hne : callerLoc ≠ st.vectors.length := Nat.ne_of_lt h
    rw [List.getD_eq_getElem?_getD, List.getElem?_set_ne hne,
      List.getElem?_concat_length]
    rfl
  exact ⟨hkey, by rw [hkey]⟩

/-- Witness for C10: a store holding one caller vector containing the
all-zero item. -/
theorem mte_c10_witness :
    VectorStore.read
        (VectorStore.write
          (submitUploadItems (VectorStore.mk [[item0]]) 0).1 0 [])
        (submitUploadItems (VectorStore.mk [[item0]]) 0).2 =
      (VectorStore.mk [[item0]]).read 0 ∧
    wrun true (WorkState.upload (UploadState.init 0
        (VectorStore.read
          (VectorStore.write
            (submitUploadItems (VectorStore.mk [[item0]]) 0).1 0 [])
          (submitUploadItems (VectorStore.mk [[item0]]) 0).2))) [] =
      wrun true (WorkState.upload (UploadState.init 0
        ((VectorStore.mk [[item0]]).read 0))) [] :=
  mte_c10_upload_copies_items (VectorStore.mk [[item0]]) 0 (by decide) []
    true 0 []

end Mavsdk
